import Mathlib

/-
Verification of the RepEditor autofix pipeline (app/routes/ai.py) and the
chat tool loop (app/routes/chat.py), as a shallow embedding.

Modelling conventions:
  - Each handler is a pure function from a `World` (the outcomes of all
    external effects: subprocess exit statuses, HTTP statuses, LLM replies,
    the filesystem, fresh temporary names) to a result together with a trace
    of the observable side effects it performed, in order.
  - Python exceptions are `Except` errors; `try/finally` appends the cleanup
    events unconditionally; `try/except` is an explicit catch combinator.
  - Filesystem paths are absolute segment lists; `Path.resolve` is modelled
    as lexical normalisation of `.` and `..` (a symlink-free tree).
  - Machine randomness (uuid4) is a `World` field: an arbitrary hex string
    drawn by the environment.
-/

namespace RepEditor

/-- Errors raised by the embedded handlers: a FastAPI HTTPException carrying
status and detail, or an httpx error from raise_for_status carrying the
response status. -/
inductive Err where
  | httpExc (status : Nat) (detail : String)
  | httpxStatus (status : Nat)
deriving DecidableEq, Repr

/-- Observable side effects of one handler invocation, in order:
directory creation by tempfile.mkdtemp, subprocess invocations, recursive
directory removal by shutil.rmtree (ignore_errors true), file reads and
writes (by resolved absolute path), file removal, outbound HTTP calls, and
LLM calls (with the file attachments embedded in the prompt). -/
inductive Ev where
  | mkdtemp (dir : List String)
  | cmd (c : List String)
  | rmtree (dir : List String)
  | readFile (p : List String)
  | writeFile (p : List String) (content : String)
  | unlink (p : List String)
  | httpGet (url : String)
  | httpPost (url : String)
  | llm (model : String) (attachments : List (String × String))
deriving DecidableEq, Repr

/-- Result of an embedded computation: a value or a raised error, plus the
trace of effects performed up to (and including) the point of return. -/
abbrev Res (α : Type) := Except Err α × List Ev

/-- Return a value with no effects. -/
def rok {α : Type} (a : α) : Res α := (Except.ok a, [])

/-- Raise an error with no effects. -/
def rerr {α : Type} (e : Err) : Res α := (Except.error e, [])

/-- Emit one effect. -/
def emit (e : Ev) : Res Unit := (Except.ok (), [e])

/-- Sequencing: on error the continuation does not run, but the effects
performed so far are kept (a raised exception does not undo side effects). -/
def rbind {α β : Type} (r : Res α) (f : α → Res β) : Res β :=
  match r with
  | (Except.error e, evs) => (Except.error e, evs)
  | (Except.ok a, evs) => ((f a).1, evs ++ (f a).2)

/-- Python try/finally where the finally block only performs effects that
cannot raise (shutil.rmtree with ignore_errors, Path.unlink with missing_ok):
the cleanup events run on every exit path and the body result is unchanged. -/
def withFinally {α : Type} (r : Res α) (fin : List Ev) : Res α :=
  (r.1, r.2 ++ fin)

/-- Python try/except handler: on error the handler runs after the body
effects. -/
def rcatch {α : Type} (r : Res α) (h : Err → Res α) : Res α :=
  match r with
  | (Except.ok a, evs) => (Except.ok a, evs)
  | (Except.error e, evs) => ((h e).1, evs ++ (h e).2)

/-- Split a character list at every occurrence of the separator character,
keeping empty pieces: the behaviour of Python str.split(sep) and of
String.splitOn with a one-character separator, implemented by structural
recursion so that the kernel can evaluate it. -/
def splitCharAux (c : Char) : List Char → List (List Char)
  | [] => [[]]
  | x :: xs =>
    match splitCharAux c xs with
    | [] => [[]]
    | y :: ys => if x = c then [] :: y :: ys else (x :: y) :: ys

/-- Split a string at every occurrence of the separator character. -/
def splitChar (c : Char) (s : String) : List String :=
  (splitCharAux c s.data).map String.mk

/-- Split a character list at every character satisfying the predicate. -/
def splitPredAux (p : Char → Bool) : List Char → List (List Char)
  | [] => [[]]
  | x :: xs =>
    match splitPredAux p xs with
    | [] => [[]]
    | y :: ys => if p x then [] :: y :: ys else (x :: y) :: ys

/-- Split a string at every character satisfying the predicate. -/
def splitPred (p : Char → Bool) (s : String) : List String :=
  (splitPredAux p s.data).map String.mk

/-- The string starts with the given prefix (character-wise). -/
def strStartsWith (s pre : String) : Bool := pre.data.isPrefixOf s.data

/-- Python string slicing s[:n]: the first n characters. -/
def strTake (s : String) (n : Nat) : String := String.mk (s.data.take n)

/-- One lexical step of path normalisation: empty and dot segments vanish,
dotdot pops (staying at the root when already there), others append. -/
def resolveStep (acc : List String) (seg : String) : List String :=
  if seg = "" ∨ seg = "." then acc
  else if seg = ".." then acc.dropLast
  else acc ++ [seg]

/-- Lexical normalisation of an absolute path given as raw segments, the
behaviour of Path.resolve in a symlink-free tree. -/
def resolvePath (segs : List String) : List String :=
  segs.foldl resolveStep []

/-- The pathlib join `root / p`: an absolute right operand replaces the root,
a relative one is split on slashes and appended. -/
def pyJoin (root : List String) (p : String) : List String :=
  if strStartsWith p "/" then splitChar '/' p else root ++ splitChar '/' p

/-- Render an absolute segment path as a string (for subprocess arguments). -/
def pathStr (segs : List String) : String :=
  "/" ++ String.intercalate "/" segs

/-- Python str.lstrip with no argument: drop leading whitespace. -/
def lstrip (s : String) : String :=
  String.mk (s.data.dropWhile Char.isWhitespace)

/-- Python `x or default` for an optional string: None and the empty string
are falsy. -/
def pyOrStr (o : Option String) (d : String) : String :=
  match o with
  | none => d
  | some s => if s = "" then d else s

/-- Python `x or default` for an optional list: None and the empty list are
falsy. -/
def pyOrList (o : Option (List String)) (d : List String) : List String :=
  match o with
  | none => d
  | some l => if l = [] then d else l

/-- Python str.split with no argument: split on whitespace runs, dropping
empty pieces. -/
def pySplitWs (s : String) : List String :=
  (splitPred Char.isWhitespace s).filter (fun t => t ≠ "")

/-- FastAPI Header(None): the header value is absent, giving None, or
present; `if not x_gh_token` treats None and the empty string as missing. -/
def tokenMissing (t : Option String) : Bool :=
  match t with
  | none => true
  | some s => s = ""

/-- The fixed 401 raised by every pipeline endpoint when the X-GH-Token
header is missing. -/
def authErr : Err := Err.httpExc 401 "Missing X-GH-Token header"

/-- Status is in the 2xx range (httpx raise_for_status raises otherwise). -/
def is2xx (s : Nat) : Bool := decide (200 ≤ s) && decide (s < 300)

/-- The plan JSON returned by the reasoning model. The pipeline only ever
reads the files key (ai_autofix line 393); the other keys of the model reply
(plan, risks, tests) are carried opaquely and never inspected, so they are
not modelled. A reply lacking the files key is modelled by an empty list,
matching the .get with default []. -/
structure PlanOut where
  files : List String
deriving DecidableEq, Repr

/-- One entry of the build_tree listing: relative path, dir or file kind,
and byte size for files. -/
structure TreeEntry where
  path : String
  kind : String
  size : Option Nat
deriving DecidableEq, Repr

/-- Outcomes of all external effects during one handler invocation. Each
Bool field is the exit status (true = zero) of the corresponding subprocess
call site; status fields are HTTP response statuses; `fs` maps a resolved
absolute path to the content of the file there, if any; `listing` is the
sorted rglob enumeration of the clone (relative path, is-dir, size);
`uuidHex` and `patchUuid` are the uuid4().hex strings drawn for the branch
slug and the patch temp file. -/
structure World where
  tmpRoot : List String
  stderrText : String
  ghStatus : Nat
  ghDefaultBranch : Option String
  cloneOk : Bool
  checkoutOk : Bool
  cfgNameOk : Bool
  cfgEmailOk : Bool
  listing : List (String × Bool × Nat)
  fs : List String → Option String
  planReply : Option PlanOut
  diffReply : String
  uuidHex : String
  patchUuid : String
  branchCheckoutOk : Bool
  newBranchOk : Bool
  applyIndexOk : Bool
  patchCmdOk : Bool
  addOk : Bool
  commitOk : Bool
  pushOk : Bool
  prStatus : Nat
  prUrl : String
  envGitAuthorName : Option String
  envGitAuthorEmail : Option String
  envSdkModel : Option String
  envSdkCodeModel : Option String

/-- REASONER_MODEL = os.getenv with default gpt-5. -/
def reasonerModel (w : World) : String := (w.envSdkModel).getD "gpt-5"

/-- CODE_MODEL = os.getenv with default gpt-5-codex. -/
def codeModel (w : World) : String := (w.envSdkCodeModel).getD "gpt-5-codex"

/-- The `run` helper: execute a subprocess, raising HTTPException 500 with
the joined command and stderr on a non-zero exit. `ok` is the exit status
this call site observes in the given world. -/
def run (ok : Bool) (stderr : String) (c : List String) : Res Unit :=
  if ok then (Except.ok (), [Ev.cmd c])
  else
    (Except.error (Err.httpExc 500
      ("Command failed: " ++ String.intercalate " " c ++ "\n" ++ stderr)),
     [Ev.cmd c])

/-- Python repo_full.split("/", 1): split at the first slash only; tuple
unpacking of a slashless string raises (a 500 from FastAPI). -/
def split1 (s : String) : Option (String × String) :=
  match splitChar '/' s with
  | [] => none
  | [_] => none
  | a :: rest => some (a, String.intercalate "/" rest)

/-- The `if branch:` guard of git_clone line 63 and git_new_branch line 93:
check out the branch when one is given, under Python truthiness (None and
the empty string skip the checkout). -/
def maybeCheckout (ok : Bool) (stderr : String) (branch : Option String) : Res Unit :=
  match branch with
  | some b => if b = "" then rok () else run ok stderr ["git", "checkout", b]
  | none => rok ()

/-- git_clone (ai.py lines 55-70): split owner/name, make a temp directory,
clone with the token embedded in the remote URL, check out the branch when
one is given, then set the local commit identity. A non-zero exit of any
step raises out of the function with the temp directory already created. -/
def gitClone (w : World) (repoFull token : String) (branch : Option String) :
    Res (List String) :=
  match split1 repoFull with
  | none => rerr (Err.httpExc 500 "not enough values to unpack")
  | some (owner, name) =>
    rbind (emit (Ev.mkdtemp w.tmpRoot)) (fun _ =>
    rbind (run w.cloneOk w.stderrText
      ["git", "clone", "--filter=blob:none", "--no-tags",
       "https://oauth2:" ++ token ++ "@github.com/" ++ owner ++ "/" ++ name ++ ".git",
       pathStr w.tmpRoot]) (fun _ =>
    rbind (maybeCheckout w.checkoutOk w.stderrText branch) (fun _ =>
    rbind (run w.cfgNameOk w.stderrText
      ["git", "config", "user.name", (w.envGitAuthorName).getD "RepEditor AI"]) (fun _ =>
    rbind (run w.cfgEmailOk w.stderrText
      ["git", "config", "user.email", (w.envGitAuthorEmail).getD "ai@repeditor.dev"]) (fun _ =>
    rok w.tmpRoot)))))

/-- build_tree (ai.py lines 73-88): enumerate the sorted recursive listing,
skipping entries with a .git component, emitting path, kind and size, and
stopping once maxEntries entries have been collected. -/
def buildTree (w : World) (maxEntries : Nat) : List TreeEntry :=
  ((w.listing.filter (fun e => !((splitChar '/' e.1).contains ".git"))).map
    (fun e =>
      { path := e.1,
        kind := if e.2.1 then "dir" else "file",
        size := if e.2.1 then none else some e.2.2 })).take maxEntries

/-- git_new_branch (ai.py lines 91-97): check out the base branch when one is
given (Python truthiness), then create and switch to repeditor/slug. -/
def gitNewBranch (w : World) (baseBranch : Option String) (slug : String) :
    Res String :=
  rbind (maybeCheckout w.branchCheckoutOk w.stderrText baseBranch) (fun _ =>
  rbind (run w.newBranchOk w.stderrText ["git", "checkout", "-b", "repeditor/" ++ slug]) (fun _ =>
  rok ("repeditor/" ++ slug)))

/-- The temp file path of apply_unified_diff line 102:
`root / f".repeditor_patch_(uuid4().hex).diff"`. -/
def patchTmp (w : World) (root : List String) : List String :=
  pyJoin root (".repeditor_patch_" ++ w.patchUuid ++ ".diff")

/-- apply_unified_diff (ai.py lines 100-112): write the diff to a
uuid-suffixed temp file inside the workspace, try git apply with the index,
on an HTTPException fall back to the patch command followed by git add -A,
and unlink the temp file on every path. -/
def applyUnifiedDiff (w : World) (root : List String) (diffText : String) :
    Res Unit :=
  rbind (emit (Ev.writeFile (patchTmp w root) diffText)) (fun _ =>
  withFinally
    (rcatch
      (run w.applyIndexOk w.stderrText
        ["git", "apply", "--index", pathStr (patchTmp w root)])
      (fun e =>
        match e with
        | Err.httpExc _ _ =>
          rbind (run w.patchCmdOk w.stderrText
            ["patch", "-p0", "-i", pathStr (patchTmp w root)]) (fun _ =>
          run w.addOk w.stderrText ["git", "add", "-A"])
        | e2 => rerr e2))
    [Ev.unlink (patchTmp w root)])

/-- git_commit_push (ai.py lines 115-118): signed-off commit of the staged
tree, then push the branch to origin. -/
def gitCommitPush (w : World) (branch message : String) : Res Unit :=
  rbind (run w.commitOk w.stderrText ["git", "commit", "-s", "-m", message]) (fun _ =>
  run w.pushOk w.stderrText ["git", "push", "origin", branch])

/-- gh_get_default_branch (ai.py lines 121-132): GET the repository record;
raise_for_status on a non-2xx status; otherwise the default_branch field
with Python `or "main"`, so a missing or null field (json .get gives None)
and the empty string all fall back to main. -/
def ghGetDefaultBranch (w : World) (repoFull : String) : Res String :=
  rbind (emit (Ev.httpGet ("https://api.github.com/repos/" ++ repoFull))) (fun _ =>
  if is2xx w.ghStatus then rok (pyOrStr w.ghDefaultBranch "main")
  else rerr (Err.httpxStatus w.ghStatus))

/-- gh_open_pr (ai.py lines 135-159): POST the pull request;
raise_for_status on a non-2xx status; otherwise the html_url of the reply. -/
def ghOpenPr (w : World) (repoFull : String) : Res String :=
  rbind (emit (Ev.httpPost ("https://api.github.com/repos/" ++ repoFull ++ "/pulls"))) (fun _ =>
  if is2xx w.prStatus then rok w.prUrl
  else rerr (Err.httpxStatus w.prStatus))

/-- chat_json (ai.py lines 182-199): one chat completion; the reply parsed
as JSON, raising a 500 when parsing fails. The prompt strings are not
inspected by any later stage; the file attachments placed in the user
payload are recorded on the llm event. -/
def chatJson (w : World) (model : String) (attachments : List (String × String)) :
    Res PlanOut :=
  rbind (emit (Ev.llm model attachments)) (fun _ =>
  match w.planReply with
  | some out => rok out
  | none => rerr (Err.httpExc 500 "Model did not return JSON"))

/-- chat_text (ai.py lines 202-212): one chat completion returning the raw
reply text (None folded to the empty string by `or ""`). -/
def chatText (w : World) (model : String) (attachments : List (String × String)) :
    Res String :=
  rbind (emit (Ev.llm model attachments)) (fun _ => rok w.diffReply)

/-- The shape check of ai_diff line 322: the reply with leading whitespace
stripped must start with a recognised unified diff header. -/
def shapeOk (d : String) : Bool :=
  strStartsWith (lstrip d) "diff " || strStartsWith (lstrip d) "--- "

/-- The sample/context loading loops of ai_plan lines 271-277 and ai_diff
lines 305-312: for each requested path, join it to the clone root, and when
a file exists there read it (the OS resolves dot-dot at lookup) truncated to
truncAt, silently skipping missing paths and read errors. -/
def loadFiles (w : World) (root : List String) (truncAt : Nat) :
    List String → Res (List (String × String))
  | [] => rok []
  | p :: ps =>
    match w.fs (resolvePath (pyJoin root p)) with
    | some content =>
      rbind (emit (Ev.readFile (resolvePath (pyJoin root p)))) (fun _ =>
      rbind (loadFiles w root truncAt ps) (fun rest =>
      rok ((p, strTake content truncAt) :: rest)))
    | none => loadFiles w root truncAt ps

/-- The base-branch resolution shared by every endpoint:
`gh_get_default_branch(...) if not req.branch else req.branch` with Python
truthiness on the optional branch. -/
def resolveBase (w : World) (repo : String) (branch : Option String) : Res String :=
  match branch with
  | some b => if b = "" then ghGetDefaultBranch w repo else rok b
  | none => ghGetDefaultBranch w repo

/-- Request body of POST /api/ai/plan. -/
structure PlanReq where
  repo : String
  branch : Option String
  goal : String
  sample_paths : Option (List String)

/-- Request body of POST /api/ai/diff. -/
structure DiffReq where
  repo : String
  branch : Option String
  goal : String
  context_files : List String
  patch_mode : String
  dry_run : Bool

/-- Request body of POST /api/ai/apply. -/
structure ApplyReq where
  repo : String
  base_branch : Option String
  diff : String
  commit_message : String
  create_pr : Bool
  pr_title : Option String
  pr_body : Option String

/-- Request body of POST /api/ai/autofix. -/
structure AutoReq where
  repo : String
  branch : Option String
  goal : String
  context_files : Option (List String)
  create_pr : Bool

/-- The JSON body returned by ai_plan: ok flag, the model plan, the
resolved branch. -/
structure PlanResp where
  ok : Bool
  plan : PlanOut
  branch : String
deriving DecidableEq, Repr

/-- The JSON body returned by ai_apply: ok flag, new branch, base branch,
and the pull request URL when one was created. -/
structure ApplyResp where
  ok : Bool
  branch : String
  base : String
  pr_url : Option String
deriving DecidableEq, Repr

/-- ai_plan (ai.py lines 257-291): 401 on a missing token, resolve the base
branch, clone, then inside try/finally build the tree, read the first 20
sample files truncated to 65536, and ask the reasoning model for a JSON
plan; the finally block always removes the workspace. -/
def aiPlan (w : World) (req : PlanReq) (token : Option String) : Res PlanResp :=
  if tokenMissing token then rerr authErr else
  rbind (resolveBase w req.repo req.branch) (fun base =>
  rbind (gitClone w req.repo (token.getD "") (some base)) (fun root =>
  withFinally
    (rbind (loadFiles w root 65536 ((req.sample_paths.getD []).take 20)) (fun samples =>
     rbind (chatJson w (reasonerModel w) samples) (fun out =>
     rok { ok := true, plan := out, branch := base })))
    [Ev.rmtree root]))

/-- ai_diff (ai.py lines 294-334): 401 on a missing token, resolve the base
branch, clone, then inside try/finally load the first 50 context files
truncated to 200000, ask the code model for a diff, reject a reply whose
lstripped text lacks a diff header, and unless dry_run create the branch,
apply the diff, and commit and push; the finally block always removes the
workspace. -/
def aiDiff (w : World) (req : DiffReq) (token : Option String) : Res String :=
  if tokenMissing token then rerr authErr else
  rbind (resolveBase w req.repo req.branch) (fun base =>
  rbind (gitClone w req.repo (token.getD "") (some base)) (fun root =>
  withFinally
    (rbind (loadFiles w root 200000 (req.context_files.take 50)) (fun ctx =>
     rbind (chatText w (codeModel w) ctx) (fun diff =>
     if shapeOk diff then
       rbind (if req.dry_run then rok () else
         rbind (gitNewBranch w (some base) (strTake w.uuidHex 8)) (fun branch =>
         rbind (applyUnifiedDiff w root diff) (fun _ =>
         gitCommitPush w branch ("chore(repeditor): " ++ strTake req.goal 80)))) (fun _ =>
       rok diff)
     else rerr (Err.httpExc 500 "Model did not return a unified diff."))))
    [Ev.rmtree root]))

/-- ai_apply (ai.py lines 337-370): 401 on a missing token, resolve the base
branch, clone, then inside try/finally create the branch, apply the
caller-supplied diff (no shape check appears here), commit and push, and
when create_pr open the pull request; the finally block always removes the
workspace. -/
def aiApply (w : World) (req : ApplyReq) (token : Option String) : Res ApplyResp :=
  if tokenMissing token then rerr authErr else
  rbind (resolveBase w req.repo req.base_branch) (fun base =>
  rbind (gitClone w req.repo (token.getD "") (some base)) (fun root =>
  withFinally
    (rbind (gitNewBranch w (some base) (strTake w.uuidHex 8)) (fun branch =>
     rbind (applyUnifiedDiff w root req.diff) (fun _ =>
     rbind (gitCommitPush w branch req.commit_message) (fun _ =>
     rbind (if req.create_pr then
         rbind (ghOpenPr w req.repo) (fun u => rok (some u))
       else rok none) (fun prUrl =>
     rok { ok := true, branch := branch, base := base, pr_url := prUrl })))))
    [Ev.rmtree root]))

/-- ai_autofix (ai.py lines 373-418): 401 on a missing token, then plan,
diff (dry run, context files defaulting to the first 12 files of the plan
under Python or-falsiness), and apply, each sub-call acquiring and releasing
its own workspace in its own environment. -/
def aiAutofix (w1 w2 w3 : World) (req : AutoReq) (token : Option String) :
    Res ApplyResp :=
  if tokenMissing token then rerr authErr else
  rbind (aiPlan w1
    { repo := req.repo, branch := req.branch, goal := req.goal,
      sample_paths := some (pyOrList req.context_files []) } token) (fun planResp =>
  rbind (aiDiff w2
    { repo := req.repo, branch := some planResp.branch, goal := req.goal,
      context_files := pyOrList req.context_files (planResp.plan.files.take 12),
      patch_mode := "unified", dry_run := true } token) (fun diffTxt =>
  aiApply w3
    { repo := req.repo, base_branch := some planResp.branch, diff := diffTxt,
      commit_message := "chore(repeditor): " ++ strTake req.goal 80,
      create_pr := req.create_pr, pr_title := none, pr_body := none } token))

/-- ai_tree (ai.py lines 421-441): 401 on a missing token, resolve, clone,
build the capped tree inside try/finally, always removing the workspace. -/
def aiTree (w : World) (repo : String) (branch : Option String) (token : Option String) :
    Res (List TreeEntry) :=
  if tokenMissing token then rerr authErr else
  rbind (resolveBase w repo branch) (fun base =>
  rbind (gitClone w repo (token.getD "") (some base)) (fun root =>
  withFinally (rok (buildTree w 8000)) [Ev.rmtree root]))

/-- ai_file (ai.py lines 444-467): 401 on a missing token, resolve, clone,
then inside try/finally resolve the requested path against the clone root
and reject it with a 400 unless the root is among its parents or equal to
it; a 404 when no file is there; otherwise read and return the content. The
finally block always removes the workspace. -/
def aiFile (w : World) (repo path : String) (branch : Option String) (token : Option String) :
    Res String :=
  if tokenMissing token then rerr authErr else
  rbind (resolveBase w repo branch) (fun base =>
  rbind (gitClone w repo (token.getD "") (some base)) (fun root =>
  withFinally
    (if root.isPrefixOf (resolvePath (pyJoin root path)) then
       match w.fs (resolvePath (pyJoin root path)) with
       | some content =>
         rbind (emit (Ev.readFile (resolvePath (pyJoin root path)))) (fun _ => rok content)
       | none => rerr (Err.httpExc 404 "File not found")
     else rerr (Err.httpExc 400 "Path escapes repository"))
    [Ev.rmtree root]))

/-- The whitelist of chat.py execute_command (line 100). -/
def allowed_commands : List String :=
  ["ls", "find", "grep", "cat", "head", "tail", "wc", "tree", "pwd", "python", "pip"]

/-- How a shell runs a command string handed to subprocess.run with
shell=True: /bin/sh -c splits a command list into simple commands at list
operators and runs the first word of each as a program. This model covers
semicolon-separated lists, the fragment needed here; a richer shell grammar
would only add further programs. -/
def shPrograms (s : String) : List String :=
  (splitChar ';' s).filterMap (fun seg => (pySplitWs seg).head?)

/-- Outcome of the execute_command tool: a refusal message, or a shell
invocation running the given programs. -/
inductive ExecOutcome where
  | refused (msg : String)
  | ran (programs : List String)
deriving DecidableEq, Repr

/-- execute_command (chat.py lines 97-117): split the command string on
whitespace; refuse when it is empty or its first token is not in the
whitelist; otherwise hand the whole original string to the shell. -/
def execute_command (command : String) : ExecOutcome :=
  match (pySplitWs command).head? with
  | none => ExecOutcome.refused command
  | some h =>
    if allowed_commands.contains h then ExecOutcome.ran (shPrograms command)
    else ExecOutcome.refused h

/-- Number of events in a trace satisfying a predicate. -/
def evCount (tr : List Ev) (p : Ev → Bool) : Nat := (tr.filter p).length

/-- The event creates the given temporary directory. -/
def isMkdtemp (d : List String) (e : Ev) : Bool :=
  match e with
  | Ev.mkdtemp d2 => d2 == d
  | _ => false

/-- The event removes the given directory tree. -/
def isRmtree (d : List String) (e : Ev) : Bool :=
  match e with
  | Ev.rmtree d2 => d2 == d
  | _ => false

/-- The event is any temporary-directory creation. -/
def isAnyMkdtemp (e : Ev) : Bool :=
  match e with
  | Ev.mkdtemp _ => true
  | _ => false

/-- The event is the outbound pull-request POST. -/
def isPrPost (e : Ev) : Bool :=
  match e with
  | Ev.httpPost _ => true
  | _ => false

/-- The event is a push to the remote. -/
def isPush (e : Ev) : Bool :=
  match e with
  | Ev.cmd c => c.take 2 == ["git", "push"]
  | _ => false

/-- The event mutates the workspace content in the sense of the claims
(patch apply, commit, push): writing the patch temp file, a patch
application command (git apply, patch, git add), a commit, or a push. -/
def isMutation (e : Ev) : Bool :=
  match e with
  | Ev.writeFile _ _ => true
  | Ev.cmd c =>
    c.take 2 == ["git", "apply"] || c.head? == some "patch" ||
    c.take 2 == ["git", "add"] || c.take 2 == ["git", "commit"] ||
    c.take 2 == ["git", "push"]
  | _ => false

/-- For every directory, the trace creates it as a temporary directory
exactly as many times as it removes it. -/
def balanced (tr : List Ev) : Prop :=
  ∀ d, evCount tr (isMkdtemp d) = evCount tr (isRmtree d)

/-- All four clone steps exit zero in this world: the clone helper returns
its handle. -/
def cloneStepsOk (w : World) : Prop :=
  w.cloneOk = true ∧ w.checkoutOk = true ∧ w.cfgNameOk = true ∧ w.cfgEmailOk = true

/-- The event is any rmtree. -/
def isAnyRmtree (e : Ev) : Bool :=
  match e with
  | Ev.rmtree _ => true
  | _ => false

/-- The event unlinks the given path. -/
def isUnlink (p : List String) (e : Ev) : Bool :=
  match e with
  | Ev.unlink q => q == p
  | _ => false

/-- The event is a subprocess invocation. -/
def isCmdEv (e : Ev) : Bool :=
  match e with
  | Ev.cmd _ => true
  | _ => false

/-- The result carries a value rather than a raised error. -/
def resultOk {α : Type} : Except Err α → Bool :=
  fun r => match r with
  | Except.ok _ => true
  | Except.error _ => false

/-- No event of the trace satisfies the predicate. -/
def evAbsent (p : Ev → Bool) (tr : List Ev) : Prop :=
  ∀ e ∈ tr, p e = false

/-- The base-branch resolution of this request succeeds: either an explicit
non-empty branch was given, or the repository GET returns a 2xx status. -/
def resolveOk (w : World) (branch : Option String) : Prop :=
  (∃ b, branch = some b ∧ b ≠ "") ∨ is2xx w.ghStatus = true

/-- The clone helper succeeds for this repository in this world: a slash in
the repository name and a zero exit from each of its four subprocesses. -/
def acquireOk (w : World) (repo : String) : Prop :=
  cloneStepsOk w ∧ ∃ q, split1 repo = some q

/-- The character is a lowercase hexadecimal digit, the alphabet of
uuid4().hex. -/
def isHexChar (c : Char) : Bool :=
  c.isDigit || (decide ('a' ≤ c) && decide (c ≤ 'f'))

/-- The values uuid4().hex[:8] can draw: eight hex characters. -/
def validSlug (s : String) : Prop :=
  s.length = 8 ∧ ∀ c ∈ s.data, isHexChar c = true

/-- The control scaffold shared by ai_plan, ai_diff, ai_apply, ai_tree and
ai_file: token check, base-branch resolution, clone, body under try/finally
with the workspace removal as the finally block. Each endpoint definition is
definitionally an instance of this scheme; the lemmas below are proved once
against it. -/
def pipeline {α : Type} (w : World) (repo tok2 : String) (branch : Option String)
    (token : Option String) (body : String → List String → Res α) : Res α :=
  if tokenMissing token then rerr authErr else
  rbind (resolveBase w repo branch) (fun base =>
  rbind (gitClone w repo tok2 (some base)) (fun root =>
  withFinally (body base root) [Ev.rmtree root]))

/-- A concrete environment in which every external effect succeeds: used to
instantiate the universally quantified theorems at explicit inputs. The
clone root is /tmp/ai-repo-1; the filesystem holds one repository file and
/etc/passwd; the model replies are well-formed. -/
def wBase : World :=
  { tmpRoot := ["tmp", "ai-repo-1"],
    stderrText := "fatal: error",
    ghStatus := 200,
    ghDefaultBranch := some "main",
    cloneOk := true, checkoutOk := true, cfgNameOk := true, cfgEmailOk := true,
    listing := [("src", true, 0), ("src/a.py", false, 8)],
    fs := fun p =>
      if p = ["tmp", "ai-repo-1", "src", "a.py"] then some "print(1)"
      else if p = ["etc", "passwd"] then some "root:x:0:0:root:/root:/bin/bash"
      else none,
    planReply := some { files := ["src/a.py"] },
    diffReply := "diff --git a/src/a.py b/src/a.py\n",
    uuidHex := "0123456789abcdef0123456789abcdef",
    patchUuid := "fedcba9876543210fedcba9876543210",
    branchCheckoutOk := true, newBranchOk := true,
    applyIndexOk := true, patchCmdOk := true, addOk := true,
    commitOk := true, pushOk := true,
    prStatus := 201, prUrl := "https://github.com/acme/widgets/pull/7",
    envGitAuthorName := none, envGitAuthorEmail := none,
    envSdkModel := none, envSdkCodeModel := none }

/-- wBase with a failing clone subprocess (for example a bad credential). -/
def wCloneFail : World := { wBase with cloneOk := false }

/-- wBase in which the pull-request POST is rejected with a 422. -/
def wPrFail : World := { wBase with prStatus := 422 }

/-- wBase in which both patch application tiers fail. -/
def wApplyFail : World := { wBase with applyIndexOk := false, patchCmdOk := false }

/-- wBase in which the code model reply starts with a newline before its
diff header. -/
def wWsReply : World := { wBase with diffReply := "\n--- a/x\n+++ b/x\n" }

/-- wBase in which the code model reply is prose, not a diff. -/
def wBadReply : World := { wBase with diffReply := "hello" }

/-- A plan request whose sample path traverses out of the workspace. -/
def planEscapeReq : PlanReq :=
  { repo := "acme/widgets", branch := none, goal := "fix",
    sample_paths := some ["../../etc/passwd"] }

/-- A diff request whose context file traverses out of the workspace. -/
def diffEscapeReq : DiffReq :=
  { repo := "acme/widgets", branch := none, goal := "fix",
    context_files := ["../../etc/passwd"], patch_mode := "unified", dry_run := true }

/-- A dry-run diff request with an ordinary context file. -/
def diffPlainReq : DiffReq :=
  { repo := "acme/widgets", branch := none, goal := "fix",
    context_files := ["src/a.py"], patch_mode := "unified", dry_run := true }

/-- An apply request whose diff is prose, not a unified diff. -/
def applyBadDiffReq : ApplyReq :=
  { repo := "acme/widgets", base_branch := some "main", diff := "hello",
    commit_message := "chore(repeditor): automated fix", create_pr := true,
    pr_title := none, pr_body := none }

/-- A plan request with no sample paths. -/
def planPlainReq : PlanReq :=
  { repo := "acme/widgets", branch := none, goal := "fix", sample_paths := none }

/-- An autofix request with default options. -/
def autoPlainReq : AutoReq :=
  { repo := "acme/widgets", branch := none, goal := "fix",
    context_files := none, create_pr := true }

/-- An apply request carrying a well-formed diff, asking for a pull
request. -/
def applyPlainReq : ApplyReq :=
  { repo := "acme/widgets", base_branch := some "main",
    diff := "diff --git a/src/a.py b/src/a.py\n",
    commit_message := "chore(repeditor): automated fix", create_pr := true,
    pr_title := none, pr_body := none }

/-- The diffPlainReq with the dry-run flag cleared: the diff is applied,
committed and pushed. -/
def diffApplyReq : DiffReq :=
  { repo := "acme/widgets", branch := none, goal := "fix",
    context_files := ["src/a.py"], patch_mode := "unified", dry_run := false }

/-- wBase where the repository record carries no default_branch value. -/
def wNoDefault : World := { wBase with ghDefaultBranch := none }

theorem withFinally_fst {α : Type} (r : Res α) (fin : List Ev) :
    (withFinally r fin).1 = r.1 := rfl

theorem withFinally_snd {α : Type} (r : Res α) (fin : List Ev) :
    (withFinally r fin).2 = r.2 ++ fin := rfl

theorem rbind_error {α β : Type} {r : Res α} (f : α → Res β) {e : Err}
    (h : r.1 = Except.error e) : rbind r f = (Except.error e, r.2) := by
  obtain ⟨res, evs⟩ := r
  simp only at h
  subst h
  rfl

theorem rbind_ok {α β : Type} {r : Res α} (f : α → Res β) {a : α}
    (h : r.1 = Except.ok a) : rbind r f = ((f a).1, r.2 ++ (f a).2) := by
  obtain ⟨res, evs⟩ := r
  simp only at h
  subst h
  rfl

theorem rcatch_ok {α : Type} {r : Res α} (h : Err → Res α) {a : α}
    (hr : r.1 = Except.ok a) : rcatch r h = r := by
  obtain ⟨res, evs⟩ := r
  simp only at hr
  subst hr
  rfl

theorem rcatch_error {α : Type} {r : Res α} (h : Err → Res α) {e : Err}
    (hr : r.1 = Except.error e) : rcatch r h = ((h e).1, r.2 ++ (h e).2) := by
  obtain ⟨res, evs⟩ := r
  simp only at hr
  subst hr
  rfl

theorem run_snd (ok : Bool) (s : String) (c : List String) :
    (run ok s c).2 = [Ev.cmd c] := by
  cases ok <;> rfl

theorem evMem_rbind {α β : Type} {r : Res α} {f : α → Res β} {e : Ev}
    (he : e ∈ (rbind r f).2) : e ∈ r.2 ∨ ∃ a, e ∈ (f a).2 := by
  obtain ⟨res, evs⟩ := r
  cases res with
  | error e2 => exact Or.inl he
  | ok a =>
    rcases List.mem_append.mp he with h1 | h2
    · exact Or.inl h1
    · exact Or.inr ⟨a, h2⟩

theorem evMem_rcatch {α : Type} {r : Res α} {h : Err → Res α} {e : Ev}
    (he : e ∈ (rcatch r h).2) : e ∈ r.2 ∨ ∃ e2, e ∈ (h e2).2 := by
  obtain ⟨res, evs⟩ := r
  cases res with
  | ok a => exact Or.inl he
  | error e2 =>
    rcases List.mem_append.mp he with h1 | h2
    · exact Or.inl h1
    · exact Or.inr ⟨e2, h2⟩

theorem evMem_withFinally {α : Type} {r : Res α} {fin : List Ev} {e : Ev}
    (he : e ∈ (withFinally r fin).2) : e ∈ r.2 ∨ e ∈ fin :=
  List.mem_append.mp he

theorem evAbsent_nil (p : Ev → Bool) : evAbsent p [] := by
  intro e he
  cases he

theorem evAbsent_single {p : Ev → Bool} {e : Ev} (h : p e = false) :
    evAbsent p [e] := by
  intro e2 he
  rcases List.mem_singleton.mp he with rfl
  exact h

theorem evAbsent_append {p : Ev → Bool} {tr1 tr2 : List Ev}
    (h1 : evAbsent p tr1) (h2 : evAbsent p tr2) : evAbsent p (tr1 ++ tr2) := by
  intro e he
  rcases List.mem_append.mp he with h | h
  · exact h1 e h
  · exact h2 e h

theorem evAbsent_rbind {α β : Type} {p : Ev → Bool} {r : Res α} {f : α → Res β}
    (h1 : evAbsent p r.2) (h2 : ∀ a, evAbsent p (f a).2) :
    evAbsent p (rbind r f).2 := by
  intro e he
  rcases evMem_rbind he with h | ⟨a, h⟩
  · exact h1 e h
  · exact h2 a e h

theorem evAbsent_rcatch {α : Type} {p : Ev → Bool} {r : Res α} {h : Err → Res α}
    (h1 : evAbsent p r.2) (h2 : ∀ e2, evAbsent p (h e2).2) :
    evAbsent p (rcatch r h).2 := by
  intro e he
  rcases evMem_rcatch he with hm | ⟨e2, hm⟩
  · exact h1 e hm
  · exact h2 e2 e hm

theorem evAbsent_run {p : Ev → Bool} {ok : Bool} {s : String} {c : List String}
    (h : p (Ev.cmd c) = false) : evAbsent p (run ok s c).2 := by
  rw [run_snd]
  exact evAbsent_single h

theorem evCount_nil (p : Ev → Bool) : evCount [] p = 0 := rfl

theorem evCount_append (tr1 tr2 : List Ev) (p : Ev → Bool) :
    evCount (tr1 ++ tr2) p = evCount tr1 p + evCount tr2 p := by
  simp [evCount, List.filter_append]

theorem evCount_cons (e : Ev) (tr : List Ev) (p : Ev → Bool) :
    evCount (e :: tr) p = (if p e then 1 else 0) + evCount tr p := by
  by_cases h : p e <;> simp [evCount, List.filter_cons, h, Nat.add_comm]

theorem evCount_eq_zero {p : Ev → Bool} {tr : List Ev} (h : evAbsent p tr) :
    evCount tr p = 0 := by
  simp only [evCount, List.length_eq_zero]
  exact List.filter_eq_nil_iff.mpr (fun e he => by simp [h e he])

theorem evAbsent_mono {p q : Ev → Bool} {tr : List Ev}
    (hpq : ∀ e, p e = true → q e = true) (h : evAbsent q tr) : evAbsent p tr := by
  intro e he
  cases hp : p e with
  | false => rfl
  | true => exact absurd (hpq e hp) (by simp [h e he])

theorem rbind_fst_ok_inv {α β : Type} {r : Res α} {f : α → Res β} {a : β}
    (h : (rbind r f).1 = Except.ok a) :
    ∃ b, r.1 = Except.ok b ∧ (f b).1 = Except.ok a := by
  obtain ⟨res, evs⟩ := r
  cases res with
  | error e => simp [rbind] at h
  | ok b => exact ⟨b, rfl, h⟩

theorem ghGetDefaultBranch_snd (w : World) (repo : String) :
    (ghGetDefaultBranch w repo).2 =
      [Ev.httpGet ("https://api.github.com/repos/" ++ repo)] := by
  by_cases h : is2xx w.ghStatus <;>
    simp [ghGetDefaultBranch, rbind, emit, rok, rerr, h]

theorem resolveBase_mem {w : World} {repo : String} {br : Option String} {e : Ev}
    (he : e ∈ (resolveBase w repo br).2) : ∃ u, e = Ev.httpGet u := by
  have hg : ∀ e2, e2 ∈ (ghGetDefaultBranch w repo).2 → ∃ u, e2 = Ev.httpGet u := by
    intro e2 he2
    rw [ghGetDefaultBranch_snd] at he2
    exact ⟨_, List.mem_singleton.mp he2⟩
  cases br with
  | none => exact hg e he
  | some b =>
    by_cases hb : b = ""
    · simp only [resolveBase, hb, if_pos rfl] at he
      exact hg e he
    · simp only [resolveBase, if_neg hb] at he
      cases he

theorem ghOpenPr_snd (w : World) (repo : String) :
    (ghOpenPr w repo).2 =
      [Ev.httpPost ("https://api.github.com/repos/" ++ repo ++ "/pulls")] := by
  by_cases h : is2xx w.prStatus <;>
    simp [ghOpenPr, rbind, emit, rok, rerr, h]

theorem chatText_eq (w : World) (m : String) (att : List (String × String)) :
    chatText w m att = (Except.ok w.diffReply, [Ev.llm m att]) := rfl

theorem chatJson_snd (w : World) (m : String) (att : List (String × String)) :
    (chatJson w m att).2 = [Ev.llm m att] := by
  cases h : w.planReply <;> simp [chatJson, rbind, emit, rok, rerr, h]

theorem loadFiles_mem {w : World} {root : List String} {t : Nat} {ps : List String}
    {e : Ev} (he : e ∈ (loadFiles w root t ps).2) : ∃ q, e = Ev.readFile q := by
  induction ps with
  | nil => cases he
  | cons p rest ih =>
    simp only [loadFiles] at he
    cases hfs : w.fs (resolvePath (pyJoin root p)) with
    | none =>
      rw [hfs] at he
      exact ih he
    | some content =>
      rw [hfs] at he
      rcases evMem_rbind he with h1 | ⟨a, h2⟩
      · exact ⟨_, List.mem_singleton.mp h1⟩
      · rcases evMem_rbind h2 with h3 | ⟨b, h4⟩
        · exact ih h3
        · cases h4

theorem rbind_fst {α β : Type} {r : Res α} {f : α → Res β} {a : α}
    (h : r.1 = Except.ok a) : (rbind r f).1 = (f a).1 := by
  rw [rbind_ok f h]

theorem loadFiles_fst (w : World) (root : List String) (t : Nat) (ps : List String) :
    ∃ l, (loadFiles w root t ps).1 = Except.ok l := by
  induction ps with
  | nil => exact ⟨[], rfl⟩
  | cons p rest ih =>
    obtain ⟨l, hl⟩ := ih
    simp only [loadFiles]
    cases hfs : w.fs (resolvePath (pyJoin root p)) with
    | none => exact ⟨l, hl⟩
    | some content =>
      refine ⟨(p, strTake content t) :: l, ?_⟩
      show (rbind (emit (Ev.readFile (resolvePath (pyJoin root p))))
        (fun _ => rbind (loadFiles w root t rest)
          (fun rest2 => rok ((p, strTake content t) :: rest2)))).1 =
        Except.ok ((p, strTake content t) :: l)
      rw [rbind_fst (show (emit (Ev.readFile (resolvePath (pyJoin root p)))).1 =
        Except.ok () from rfl)]
      rw [rbind_fst hl]
      rfl

theorem maybeCheckout_mem {ok : Bool} {s : String} {br : Option String} {e : Ev}
    (he : e ∈ (maybeCheckout ok s br).2) :
    ∃ b, e = Ev.cmd ["git", "checkout", b] := by
  cases br with
  | none => cases he
  | some b =>
    by_cases hb : b = ""
    · subst hb
      cases he
    · rw [show maybeCheckout ok s (some b) =
        (if b = "" then rok () else run ok s ["git", "checkout", b]) from rfl,
        if_neg hb, run_snd] at he
      exact ⟨b, List.mem_singleton.mp he⟩

theorem maybeCheckout_fst {ok : Bool} {s : String} {br : Option String}
    (h : ok = true) : (maybeCheckout ok s br).1 = Except.ok () := by
  subst h
  cases br with
  | none => rfl
  | some b => by_cases hb : b = "" <;> simp [maybeCheckout, hb, run, rok]

theorem gitNewBranch_mem {w : World} {bb : Option String} {slug : String} {e : Ev}
    (he : e ∈ (gitNewBranch w bb slug).2) :
    (∃ b, e = Ev.cmd ["git", "checkout", b]) ∨
    e = Ev.cmd ["git", "checkout", "-b", "repeditor/" ++ slug] := by
  simp only [gitNewBranch] at he
  rcases evMem_rbind he with h1 | ⟨a, h2⟩
  · exact Or.inl (maybeCheckout_mem h1)
  · rcases evMem_rbind h2 with h3 | ⟨b2, h4⟩
    · rw [run_snd] at h3
      exact Or.inr (List.mem_singleton.mp h3)
    · cases h4

theorem applyUnifiedDiff_mem {w : World} {root : List String} {d : String} {e : Ev}
    (he : e ∈ (applyUnifiedDiff w root d).2) :
    e = Ev.writeFile (patchTmp w root) d ∨
    e = Ev.cmd ["git", "apply", "--index", pathStr (patchTmp w root)] ∨
    e = Ev.cmd ["patch", "-p0", "-i", pathStr (patchTmp w root)] ∨
    e = Ev.cmd ["git", "add", "-A"] ∨
    e = Ev.unlink (patchTmp w root) := by
  simp only [applyUnifiedDiff] at he
  rcases evMem_rbind he with h1 | ⟨a, h2⟩
  · exact Or.inl (List.mem_singleton.mp h1)
  · rcases evMem_withFinally h2 with h3 | h3
    · rcases evMem_rcatch h3 with h4 | ⟨e2, h5⟩
      · rw [run_snd] at h4
        exact Or.inr (Or.inl (List.mem_singleton.mp h4))
      · cases e2 with
        | httpExc st dt =>
          rcases evMem_rbind h5 with h6 | ⟨b, h7⟩
          · rw [run_snd] at h6
            exact Or.inr (Or.inr (Or.inl (List.mem_singleton.mp h6)))
          · rw [run_snd] at h7
            exact Or.inr (Or.inr (Or.inr (Or.inl (List.mem_singleton.mp h7))))
        | httpxStatus st => cases h5
    · exact Or.inr (Or.inr (Or.inr (Or.inr (List.mem_singleton.mp h3))))

theorem gitCommitPush_mem {w : World} {branch message : String} {e : Ev}
    (he : e ∈ (gitCommitPush w branch message).2) :
    e = Ev.cmd ["git", "commit", "-s", "-m", message] ∨
    e = Ev.cmd ["git", "push", "origin", branch] := by
  simp only [gitCommitPush] at he
  rcases evMem_rbind he with h1 | ⟨a, h2⟩
  · rw [run_snd] at h1
    exact Or.inl (List.mem_singleton.mp h1)
  · rw [run_snd] at h2
    exact Or.inr (List.mem_singleton.mp h2)

theorem gitClone_mem {w : World} {repo tok2 : String} {br : Option String} {e : Ev}
    (he : e ∈ (gitClone w repo tok2 br).2) :
    e = Ev.mkdtemp w.tmpRoot ∨
    (∃ r2, e = Ev.cmd (["git", "clone", "--filter=blob:none", "--no-tags"] ++ r2)) ∨
    (∃ b, e = Ev.cmd ["git", "checkout", b]) ∨
    (∃ x, e = Ev.cmd ["git", "config", "user.name", x]) ∨
    (∃ x, e = Ev.cmd ["git", "config", "user.email", x]) := by
  simp only [gitClone] at he
  cases hsp : split1 repo with
  | none =>
    rw [hsp] at he
    cases he
  | some q =>
    obtain ⟨o, n⟩ := q
    rw [hsp] at he
    rcases evMem_rbind he with h1 | ⟨a, h2⟩
    · exact Or.inl (List.mem_singleton.mp h1)
    · rcases evMem_rbind h2 with h3 | ⟨b, h4⟩
      · rw [run_snd] at h3
        exact Or.inr (Or.inl ⟨_, List.mem_singleton.mp h3⟩)
      · rcases evMem_rbind h4 with h5 | ⟨c, h6⟩
        · exact Or.inr (Or.inr (Or.inl (maybeCheckout_mem h5)))
        · rcases evMem_rbind h6 with h7 | ⟨d, h8⟩
          · rw [run_snd] at h7
            exact Or.inr (Or.inr (Or.inr (Or.inl ⟨_, List.mem_singleton.mp h7⟩)))
          · rcases evMem_rbind h8 with h9 | ⟨f2, h10⟩
            · rw [run_snd] at h9
              exact Or.inr (Or.inr (Or.inr (Or.inr ⟨_, List.mem_singleton.mp h9⟩)))
            · cases h10

theorem gitClone_none {w : World} {repo tok2 : String} {br : Option String}
    (h : split1 repo = none) :
    gitClone w repo tok2 br =
      (Except.error (Err.httpExc 500 "not enough values to unpack"), []) := by
  simp [gitClone, h, rerr]

theorem gitClone_ok_eq {w : World} {repo tok2 : String} (b : String)
    (h : cloneStepsOk w) {o n : String} (hsp : split1 repo = some (o, n)) :
    ∃ cmds, gitClone w repo tok2 (some b) =
        (Except.ok w.tmpRoot, Ev.mkdtemp w.tmpRoot :: cmds) ∧
      (∀ e ∈ cmds, isCmdEv e = true) := by
  obtain ⟨h1, h2, h3, h4⟩ := h
  by_cases hb : b = ""
  · refine ⟨[Ev.cmd ["git", "clone", "--filter=blob:none", "--no-tags",
        "https://oauth2:" ++ tok2 ++ "@github.com/" ++ o ++ "/" ++ n ++ ".git",
        pathStr w.tmpRoot],
      Ev.cmd ["git", "config", "user.name", (w.envGitAuthorName).getD "RepEditor AI"],
      Ev.cmd ["git", "config", "user.email", (w.envGitAuthorEmail).getD "ai@repeditor.dev"]],
      ?_, ?_⟩
    · simp [gitClone, hsp, h1, h3, h4, maybeCheckout, hb, run, rbind, emit, rok]
    · intro e he
      fin_cases he <;> rfl
  · refine ⟨[Ev.cmd ["git", "clone", "--filter=blob:none", "--no-tags",
        "https://oauth2:" ++ tok2 ++ "@github.com/" ++ o ++ "/" ++ n ++ ".git",
        pathStr w.tmpRoot],
      Ev.cmd ["git", "checkout", b],
      Ev.cmd ["git", "config", "user.name", (w.envGitAuthorName).getD "RepEditor AI"],
      Ev.cmd ["git", "config", "user.email", (w.envGitAuthorEmail).getD "ai@repeditor.dev"]],
      ?_, ?_⟩
    · simp [gitClone, hsp, h1, h2, h3, h4, maybeCheckout, hb, run, rbind, emit, rok]
    · intro e he
      fin_cases he <;> rfl

theorem resolveBase_fst_ok {w : World} (repo : String) {branch : Option String}
    (hr : resolveOk w branch) :
    ∃ base, (resolveBase w repo branch).1 = Except.ok base := by
  have hgh : is2xx w.ghStatus = true →
      ∃ base, (ghGetDefaultBranch w repo).1 = Except.ok base := by
    intro h2
    exact ⟨pyOrStr w.ghDefaultBranch "main",
      by simp [ghGetDefaultBranch, rbind, emit, rok, h2]⟩
  rcases hr with ⟨b, rfl, hb⟩ | h2
  · exact ⟨b, by simp [resolveBase, hb, rok]⟩
  · cases branch with
    | none => exact hgh h2
    | some b =>
      by_cases hb : b = ""
      · simpa [resolveBase, hb] using hgh h2
      · exact ⟨b, by simp [resolveBase, hb, rok]⟩

theorem pipeline_token (w : World) {α : Type} (repo tok2 : String)
    (branch : Option String) (token : Option String)
    (body : String → List String → Res α) (h : tokenMissing token = true) :
    pipeline w repo tok2 branch token body = (Except.error authErr, []) := by
  simp [pipeline, h, rerr]

theorem pipeline_decomp {α : Type} {w : World} {repo tok2 : String}
    {branch : Option String} {token : Option String}
    {body : String → List String → Res α}
    (ht : tokenMissing token = false) (hr : resolveOk w branch)
    (ha : acquireOk w repo) :
    ∃ base cmds,
      (resolveBase w repo branch).1 = Except.ok base ∧
      pipeline w repo tok2 branch token body =
        ((body base w.tmpRoot).1,
          (resolveBase w repo branch).2 ++
            (Ev.mkdtemp w.tmpRoot :: cmds ++
              ((body base w.tmpRoot).2 ++ [Ev.rmtree w.tmpRoot]))) ∧
      (∀ e ∈ cmds, isCmdEv e = true) := by
  obtain ⟨hcs, ⟨o, n⟩, hsp⟩ := ha
  obtain ⟨base, hbase⟩ := resolveBase_fst_ok repo hr
  obtain ⟨cmds, hclone, hcmds⟩ := gitClone_ok_eq base hcs hsp
  refine ⟨base, cmds, hbase, ?_, hcmds⟩
  rw [pipeline, if_neg (by simp [ht]), rbind_ok _ hbase,
    rbind_ok _ (show (gitClone w repo tok2 (some base)).1 = Except.ok w.tmpRoot by
      rw [hclone]), hclone]
  simp [withFinally]

theorem evMem_rbind2 {α β : Type} {r : Res α} {f : α → Res β} {e : Ev}
    (he : e ∈ (rbind r f).2) :
    e ∈ r.2 ∨ ∃ a, r.1 = Except.ok a ∧ e ∈ (f a).2 := by
  obtain ⟨res, evs⟩ := r
  cases res with
  | error e2 => exact Or.inl he
  | ok a =>
    rcases List.mem_append.mp he with h1 | h2
    · exact Or.inl h1
    · exact Or.inr ⟨a, rfl, h2⟩

theorem gitClone_fst_root {w : World} {repo tok2 : String} {br : Option String}
    {root : List String}
    (h : (gitClone w repo tok2 br).1 = Except.ok root) : root = w.tmpRoot := by
  cases hsp : split1 repo with
  | none =>
    rw [gitClone_none hsp] at h
    cases h
  | some q =>
    obtain ⟨o, n⟩ := q
    simp only [gitClone, hsp] at h
    obtain ⟨a1, ha1, h⟩ := rbind_fst_ok_inv h
    obtain ⟨a2, ha2, h⟩ := rbind_fst_ok_inv h
    obtain ⟨a3, ha3, h⟩ := rbind_fst_ok_inv h
    obtain ⟨a4, ha4, h⟩ := rbind_fst_ok_inv h
    obtain ⟨a5, ha5, h⟩ := rbind_fst_ok_inv h
    simpa [rok] using h.symm

theorem pipeline_mem {α : Type} {w : World} {repo tok2 : String}
    {branch : Option String} {token : Option String}
    {body : String → List String → Res α} {e : Ev}
    (he : e ∈ (pipeline w repo tok2 branch token body).2) :
    (∃ base, e ∈ (body base w.tmpRoot).2) ∨
    e = Ev.mkdtemp w.tmpRoot ∨ (∃ d, e = Ev.rmtree d) ∨
    (∃ u, e = Ev.httpGet u) ∨ (∃ c, e = Ev.cmd c ∧ isMutation e = false) := by
  by_cases h : tokenMissing token
  · rw [pipeline_token w repo tok2 branch token body h] at he
    cases he
  · simp only [pipeline, if_neg h] at he
    rcases evMem_rbind he with h1 | ⟨base, h2⟩
    · exact Or.inr (Or.inr (Or.inr (Or.inl (resolveBase_mem h1))))
    · rcases evMem_rbind2 h2 with h3 | ⟨root, hroot, h4⟩
      · rcases gitClone_mem h3 with h5 | ⟨r2, h5⟩ | ⟨b, h5⟩ | ⟨x, h5⟩ | ⟨x, h5⟩
        · exact Or.inr (Or.inl h5)
        · exact Or.inr (Or.inr (Or.inr (Or.inr ⟨_, h5, by subst h5; rfl⟩)))
        · exact Or.inr (Or.inr (Or.inr (Or.inr ⟨_, h5, by subst h5; rfl⟩)))
        · exact Or.inr (Or.inr (Or.inr (Or.inr ⟨_, h5, by subst h5; rfl⟩)))
        · exact Or.inr (Or.inr (Or.inr (Or.inr ⟨_, h5, by subst h5; rfl⟩)))
      · have hrt : root = w.tmpRoot := gitClone_fst_root hroot
        subst hrt
        rcases evMem_withFinally h4 with h5 | h5
        · exact Or.inl ⟨base, h5⟩
        · exact Or.inr (Or.inr (Or.inl ⟨w.tmpRoot, List.mem_singleton.mp h5⟩))

theorem cmd_not_ws {e : Ev} (h : isCmdEv e = true) :
    isAnyMkdtemp e = false ∧ isAnyRmtree e = false := by
  cases e <;> first | exact ⟨rfl, rfl⟩ | simp [isCmdEv] at h

theorem evAbsent_resolveBase_mk {w : World} {repo : String} {br : Option String} :
    evAbsent isAnyMkdtemp (resolveBase w repo br).2 ∧
    evAbsent isAnyRmtree (resolveBase w repo br).2 := by
  constructor <;> intro e he <;> rcases resolveBase_mem he with ⟨u, rfl⟩ <;> rfl

theorem pipeline_ws {α : Type} {w : World} {repo tok2 : String}
    {branch : Option String} {token : Option String}
    {body : String → List String → Res α}
    (hcs : cloneStepsOk w)
    (hb : ∀ base root, evAbsent isAnyMkdtemp (body base root).2 ∧
      evAbsent isAnyRmtree (body base root).2) :
    balanced (pipeline w repo tok2 branch token body).2 ∧
    evCount (pipeline w repo tok2 branch token body).2 isAnyMkdtemp ≤ 1 := by
  by_cases ht : tokenMissing token
  · rw [pipeline_token w repo tok2 branch token body ht]
    exact ⟨fun d => rfl, by simp [evCount]⟩
  · simp only [pipeline, if_neg ht]
    rcases hres : (resolveBase w repo branch).1 with e0 | base
    · rw [rbind_error _ hres]
      refine ⟨fun d => ?_, ?_⟩
      · rw [evCount_eq_zero (evAbsent_mono (fun e h2 => by cases e <;> simp_all [isMkdtemp, isAnyMkdtemp]) evAbsent_resolveBase_mk.1),
          evCount_eq_zero (evAbsent_mono (fun e h2 => by cases e <;> simp_all [isRmtree, isAnyRmtree]) evAbsent_resolveBase_mk.2)]
      · rw [evCount_eq_zero evAbsent_resolveBase_mk.1]
        exact Nat.zero_le 1
    · rw [rbind_ok _ hres]
      cases hsp : split1 repo with
      | none =>
        rw [gitClone_none hsp, rbind_error _ rfl]
        refine ⟨fun d => ?_, ?_⟩
        · simp only [evCount_append]
          rw [evCount_eq_zero (evAbsent_mono (fun e h2 => by cases e <;> simp_all [isMkdtemp, isAnyMkdtemp]) evAbsent_resolveBase_mk.1),
            evCount_eq_zero (evAbsent_mono (fun e h2 => by cases e <;> simp_all [isRmtree, isAnyRmtree]) evAbsent_resolveBase_mk.2)]
          rfl
        · simp only [evCount_append]
          rw [evCount_eq_zero evAbsent_resolveBase_mk.1]
          simp [evCount]
      | some q =>
        obtain ⟨o, n⟩ := q
        obtain ⟨cmds, hclone, hcmds⟩ := gitClone_ok_eq base hcs hsp
        rw [rbind_ok _ (show (gitClone w repo tok2 (some base)).1 = Except.ok w.tmpRoot by
          rw [hclone]), hclone]
        have habs1 : evAbsent isAnyMkdtemp cmds :=
          fun e he => (cmd_not_ws (hcmds e he)).1
        have habs2 : evAbsent isAnyRmtree cmds :=
          fun e he => (cmd_not_ws (hcmds e he)).2
        refine ⟨fun d => ?_, ?_⟩
        · simp only [withFinally_snd, evCount_append, evCount_cons]
          rw [evCount_eq_zero (evAbsent_mono (fun e h2 => by cases e <;> simp_all [isMkdtemp, isAnyMkdtemp]) evAbsent_resolveBase_mk.1),
            evCount_eq_zero (evAbsent_mono (fun e h2 => by cases e <;> simp_all [isRmtree, isAnyRmtree]) evAbsent_resolveBase_mk.2),
            evCount_eq_zero (evAbsent_mono (fun e h2 => by cases e <;> simp_all [isMkdtemp, isAnyMkdtemp]) habs1),
            evCount_eq_zero (evAbsent_mono (fun e h2 => by cases e <;> simp_all [isRmtree, isAnyRmtree]) habs2),
            evCount_eq_zero (evAbsent_mono (fun e h2 => by cases e <;> simp_all [isMkdtemp, isAnyMkdtemp]) (hb base w.tmpRoot).1),
            evCount_eq_zero (evAbsent_mono (fun e h2 => by cases e <;> simp_all [isRmtree, isAnyRmtree]) (hb base w.tmpRoot).2)]
          simp [evCount, List.filter, isMkdtemp, isRmtree]
        · simp only [withFinally_snd, evCount_append, evCount_cons]
          rw [evCount_eq_zero evAbsent_resolveBase_mk.1,
            evCount_eq_zero habs1,
            evCount_eq_zero (hb base w.tmpRoot).1]
          simp [evCount, List.filter, isAnyMkdtemp]

theorem aiPlan_eq (w : World) (req : PlanReq) (token : Option String) :
    aiPlan w req token =
      pipeline w req.repo (token.getD "") req.branch token
        (fun base root =>
          rbind (loadFiles w root 65536 ((req.sample_paths.getD []).take 20)) (fun samples =>
          rbind (chatJson w (reasonerModel w) samples) (fun out =>
          rok { ok := true, plan := out, branch := base }))) := rfl

theorem aiDiff_eq (w : World) (req : DiffReq) (token : Option String) :
    aiDiff w req token =
      pipeline w req.repo (token.getD "") req.branch token
        (fun base root =>
          rbind (loadFiles w root 200000 (req.context_files.take 50)) (fun ctx =>
          rbind (chatText w (codeModel w) ctx) (fun diff =>
          if shapeOk diff then
            rbind (if req.dry_run then rok () else
              rbind (gitNewBranch w (some base) (strTake w.uuidHex 8)) (fun branch =>
              rbind (applyUnifiedDiff w root diff) (fun _ =>
              gitCommitPush w branch ("chore(repeditor): " ++ strTake req.goal 80)))) (fun _ =>
            rok diff)
          else rerr (Err.httpExc 500 "Model did not return a unified diff.")))) := rfl

theorem aiApply_eq (w : World) (req : ApplyReq) (token : Option String) :
    aiApply w req token =
      pipeline w req.repo (token.getD "") req.base_branch token
        (fun base root =>
          rbind (gitNewBranch w (some base) (strTake w.uuidHex 8)) (fun branch =>
          rbind (applyUnifiedDiff w root req.diff) (fun _ =>
          rbind (gitCommitPush w branch req.commit_message) (fun _ =>
          rbind (if req.create_pr then
              rbind (ghOpenPr w req.repo) (fun u => rok (some u))
            else rok none) (fun prUrl =>
          rok { ok := true, branch := branch, base := base, pr_url := prUrl }))))) := rfl

theorem aiTree_eq (w : World) (repo : String) (branch : Option String)
    (token : Option String) :
    aiTree w repo branch token =
      pipeline w repo (token.getD "") branch token
        (fun _base _root => rok (buildTree w 8000)) := rfl

theorem aiFile_eq (w : World) (repo path : String) (branch : Option String)
    (token : Option String) :
    aiFile w repo path branch token =
      pipeline w repo (token.getD "") branch token
        (fun _base root =>
          if root.isPrefixOf (resolvePath (pyJoin root path)) then
            match w.fs (resolvePath (pyJoin root path)) with
            | some content =>
              rbind (emit (Ev.readFile (resolvePath (pyJoin root path)))) (fun _ => rok content)
            | none => rerr (Err.httpExc 404 "File not found")
          else rerr (Err.httpExc 400 "Path escapes repository")) := rfl

theorem loadFiles_ws (w : World) (root : List String) (t : Nat) (ps : List String) :
    evAbsent isAnyMkdtemp (loadFiles w root t ps).2 ∧
    evAbsent isAnyRmtree (loadFiles w root t ps).2 := by
  constructor <;> intro e he <;> rcases loadFiles_mem he with ⟨q, rfl⟩ <;> rfl

theorem gitNewBranch_ws (w : World) (bb : Option String) (slug : String) :
    evAbsent isAnyMkdtemp (gitNewBranch w bb slug).2 ∧
    evAbsent isAnyRmtree (gitNewBranch w bb slug).2 := by
  constructor <;> intro e he <;> rcases gitNewBranch_mem he with ⟨b, rfl⟩ | rfl <;> rfl

theorem applyUnifiedDiff_ws (w : World) (root : List String) (d : String) :
    evAbsent isAnyMkdtemp (applyUnifiedDiff w root d).2 ∧
    evAbsent isAnyRmtree (applyUnifiedDiff w root d).2 := by
  constructor <;> intro e he <;>
    rcases applyUnifiedDiff_mem he with rfl | rfl | rfl | rfl | rfl <;> rfl

theorem gitCommitPush_ws (w : World) (branch message : String) :
    evAbsent isAnyMkdtemp (gitCommitPush w branch message).2 ∧
    evAbsent isAnyRmtree (gitCommitPush w branch message).2 := by
  constructor <;> intro e he <;> rcases gitCommitPush_mem he with rfl | rfl <;> rfl

theorem ghOpenPr_ws (w : World) (repo : String) :
    evAbsent isAnyMkdtemp (ghOpenPr w repo).2 ∧
    evAbsent isAnyRmtree (ghOpenPr w repo).2 := by
  rw [ghOpenPr_snd]
  exact ⟨evAbsent_single rfl, evAbsent_single rfl⟩

theorem chatJson_ws (w : World) (m : String) (att : List (String × String)) :
    evAbsent isAnyMkdtemp (chatJson w m att).2 ∧
    evAbsent isAnyRmtree (chatJson w m att).2 := by
  rw [chatJson_snd]
  exact ⟨evAbsent_single rfl, evAbsent_single rfl⟩

theorem aiPlan_ws (w : World) (req : PlanReq) (token : Option String)
    (h : cloneStepsOk w) :
    balanced (aiPlan w req token).2 ∧
    evCount (aiPlan w req token).2 isAnyMkdtemp ≤ 1 := by
  rw [aiPlan_eq]
  refine pipeline_ws h ?_
  intro base root
  constructor
  all_goals
    intro e he
    rcases evMem_rbind he with h1 | ⟨a, h2⟩
    · rcases loadFiles_mem h1 with ⟨q, rfl⟩
      rfl
    · rcases evMem_rbind h2 with h3 | ⟨b, h4⟩
      · rw [chatJson_snd] at h3
        rcases List.mem_singleton.mp h3 with rfl
        rfl
      · cases h4

theorem aiDiff_ws (w : World) (req : DiffReq) (token : Option String)
    (h : cloneStepsOk w) :
    balanced (aiDiff w req token).2 ∧
    evCount (aiDiff w req token).2 isAnyMkdtemp ≤ 1 := by
  rw [aiDiff_eq]
  refine pipeline_ws h ?_
  intro base root
  constructor
  all_goals
    intro e he
    rcases evMem_rbind he with h1 | ⟨a, h2⟩
    · rcases loadFiles_mem h1 with ⟨q, rfl⟩
      rfl
    · rcases evMem_rbind h2 with h3 | ⟨diff, h4⟩
      · rw [chatText_eq] at h3
        rcases List.mem_singleton.mp h3 with rfl
        rfl
      · by_cases hsh : shapeOk diff

        · rw [if_pos hsh] at h4
          rcases evMem_rbind h4 with h5 | ⟨c, h6⟩
          · by_cases hdr : req.dry_run
            · rw [if_pos hdr] at h5
              cases h5
            · rw [if_neg hdr] at h5
              rcases evMem_rbind h5 with h7 | ⟨branch, h8⟩
              · rcases gitNewBranch_mem h7 with ⟨b2, rfl⟩ | rfl <;> rfl
              · rcases evMem_rbind h8 with h9 | ⟨d2, h10⟩
                · rcases applyUnifiedDiff_mem h9 with rfl | rfl | rfl | rfl | rfl <;> rfl
                · rcases gitCommitPush_mem h10 with rfl | rfl <;> rfl
          · cases h6
        · rw [if_neg hsh] at h4
          cases h4

theorem aiApply_ws (w : World) (req : ApplyReq) (token : Option String)
    (h : cloneStepsOk w) :
    balanced (aiApply w req token).2 ∧
    evCount (aiApply w req token).2 isAnyMkdtemp ≤ 1 := by
  rw [aiApply_eq]
  refine pipeline_ws h ?_
  intro base root
  constructor
  all_goals
    intro e he
    rcases evMem_rbind he with h1 | ⟨branch, h2⟩
    · rcases gitNewBranch_mem h1 with ⟨b2, rfl⟩ | rfl <;> rfl
    · rcases evMem_rbind h2 with h3 | ⟨a, h4⟩
      · rcases applyUnifiedDiff_mem h3 with rfl | rfl | rfl | rfl | rfl <;> rfl
      · rcases evMem_rbind h4 with h5 | ⟨b, h6⟩
        · rcases gitCommitPush_mem h5 with rfl | rfl <;> rfl
        · rcases evMem_rbind h6 with h7 | ⟨c, h8⟩
          · by_cases hc : req.create_pr
            · rw [if_pos hc] at h7
              rcases evMem_rbind h7 with h9 | ⟨u, h10⟩
              · rw [ghOpenPr_snd] at h9
                rcases List.mem_singleton.mp h9 with rfl
                rfl
              · cases h10
            · rw [if_neg hc] at h7
              cases h7
          · cases h8

theorem aiTree_ws (w : World) (repo : String) (br : Option String)
    (token : Option String) (h : cloneStepsOk w) :
    balanced (aiTree w repo br token).2 ∧
    evCount (aiTree w repo br token).2 isAnyMkdtemp ≤ 1 := by
  rw [aiTree_eq]
  refine pipeline_ws h ?_
  intro base root
  exact ⟨evAbsent_nil _, evAbsent_nil _⟩

theorem aiFile_body_mem {w : World} {root : List String} {path : String} {e : Ev}
    (he : e ∈ ((if root.isPrefixOf (resolvePath (pyJoin root path)) then
        match w.fs (resolvePath (pyJoin root path)) with
        | some content =>
          rbind (emit (Ev.readFile (resolvePath (pyJoin root path)))) (fun _ => rok content)
        | none => rerr (Err.httpExc 404 "File not found")
      else rerr (Err.httpExc 400 "Path escapes repository") : Res String)).2) :
    e = Ev.readFile (resolvePath (pyJoin root path)) ∧
    root.isPrefixOf (resolvePath (pyJoin root path)) = true := by
  by_cases hp : root.isPrefixOf (resolvePath (pyJoin root path))
  · rw [if_pos hp] at he
    cases hfs : w.fs (resolvePath (pyJoin root path)) with
    | none =>
      rw [hfs] at he
      cases he
    | some content =>
      rw [hfs] at he
      rcases evMem_rbind he with h1 | ⟨a, h2⟩
      · exact ⟨List.mem_singleton.mp h1, hp⟩
      · cases h2
  · rw [if_neg hp] at he
    cases he

theorem aiFile_ws (w : World) (repo path : String) (br : Option String)
    (token : Option String) (h : cloneStepsOk w) :
    balanced (aiFile w repo path br token).2 ∧
    evCount (aiFile w repo path br token).2 isAnyMkdtemp ≤ 1 := by
  rw [aiFile_eq]
  refine pipeline_ws h ?_
  intro base root
  constructor
  all_goals
    intro e he
    rcases aiFile_body_mem he with ⟨rfl, h2⟩
    rfl

theorem balanced_append {tr1 tr2 : List Ev}
    (h1 : balanced tr1) (h2 : balanced tr2) : balanced (tr1 ++ tr2) := by
  intro d
  rw [evCount_append, evCount_append, h1 d, h2 d]

theorem balanced_rbind {α β : Type} {r : Res α} {f : α → Res β}
    (h1 : balanced r.2) (h2 : ∀ a, balanced (f a).2) : balanced (rbind r f).2 := by
  obtain ⟨res, evs⟩ := r
  cases res with
  | error e => exact h1
  | ok a => exact balanced_append h1 (h2 a)

theorem aiAutofix_ws (w1 w2 w3 : World) (req : AutoReq) (token : Option String)
    (h1 : cloneStepsOk w1) (h2 : cloneStepsOk w2) (h3 : cloneStepsOk w3) :
    balanced (aiAutofix w1 w2 w3 req token).2 := by
  by_cases ht : tokenMissing token
  · simp only [aiAutofix, if_pos ht]
    exact fun d => rfl
  · simp only [aiAutofix, if_neg ht]
    refine balanced_rbind (aiPlan_ws w1 _ token h1).1 ?_
    intro planResp
    refine balanced_rbind (aiDiff_ws w2 _ token h2).1 ?_
    intro diffTxt
    exact (aiApply_ws w3 _ token h3).1

theorem applyUnifiedDiff_fst (w : World) (root : List String) (d : String) :
    resultOk (applyUnifiedDiff w root d).1 =
      (w.applyIndexOk || (w.patchCmdOk && w.addOk)) := by
  cases h1 : w.applyIndexOk <;> cases h2 : w.patchCmdOk <;> cases h3 : w.addOk <;>
    simp [applyUnifiedDiff, run, rbind, rcatch, withFinally, emit, rok, rerr,
      resultOk, h1, h2, h3]

theorem gitNewBranch_fst {w : World} {bb : Option String} {slug : String} {b : String}
    (h : (gitNewBranch w bb slug).1 = Except.ok b) : b = "repeditor/" ++ slug := by
  simp only [gitNewBranch] at h
  obtain ⟨a1, ha1, h⟩ := rbind_fst_ok_inv h
  obtain ⟨a2, ha2, h⟩ := rbind_fst_ok_inv h
  simpa [rok] using h.symm

theorem gitNewBranch_ok_eq (w : World) (b slug : String) (hb : b ≠ "")
    (h1 : w.branchCheckoutOk = true) (h2 : w.newBranchOk = true) :
    gitNewBranch w (some b) slug =
      (Except.ok ("repeditor/" ++ slug),
       [Ev.cmd ["git", "checkout", b],
        Ev.cmd ["git", "checkout", "-b", "repeditor/" ++ slug]]) := by
  simp [gitNewBranch, maybeCheckout, hb, h1, h2, run, rbind, rok]

theorem gitCommitPush_push_ok {w : World} {branch message : String} {e : Ev}
    (he : e ∈ (gitCommitPush w branch message).2) (hp : isPush e = true) :
    w.commitOk = true := by
  cases hc : w.commitOk with
  | true => rfl
  | false =>
    simp only [gitCommitPush, hc] at he
    rcases evMem_rbind2 he with h1 | ⟨a, hok, h2⟩
    · rw [run_snd] at h1
      rcases List.mem_singleton.mp h1 with rfl
      simp [isPush] at hp
    · simp [run] at hok

theorem pipeline_fst_ok_inv {α : Type} {w : World} {repo tok2 : String}
    {branch : Option String} {token : Option String}
    {body : String → List String → Res α} {a : α}
    (h : (pipeline w repo tok2 branch token body).1 = Except.ok a) :
    ∃ base, (body base w.tmpRoot).1 = Except.ok a := by
  by_cases ht : tokenMissing token
  · rw [pipeline_token w repo tok2 branch token body ht] at h
    cases h
  · simp only [pipeline, if_neg ht] at h
    obtain ⟨base, hbase, h⟩ := rbind_fst_ok_inv h
    obtain ⟨root, hroot, h⟩ := rbind_fst_ok_inv h
    have := gitClone_fst_root hroot
    subst this
    exact ⟨base, h⟩

theorem chatText_fst_inv {w : World} {m : String} {att : List (String × String)}
    {d : String} (h : (chatText w m att).1 = Except.ok d) : d = w.diffReply := by
  rw [chatText_eq] at h
  simpa using h.symm

theorem aiDiff_fst_ok {w : World} {req : DiffReq} {token : Option String} {d : String}
    (h : (aiDiff w req token).1 = Except.ok d) :
    shapeOk w.diffReply = true ∧ d = w.diffReply := by
  rw [aiDiff_eq] at h
  obtain ⟨base, h⟩ := pipeline_fst_ok_inv h
  obtain ⟨ctx, hctx, h⟩ := rbind_fst_ok_inv h
  obtain ⟨diff, hdiff, h⟩ := rbind_fst_ok_inv h
  have hd : diff = w.diffReply := chatText_fst_inv hdiff
  subst hd
  by_cases hsh : shapeOk w.diffReply
  · rw [if_pos hsh] at h
    obtain ⟨u, hu, h⟩ := rbind_fst_ok_inv h
    exact ⟨hsh, by simpa [rok] using h.symm⟩
  · rw [if_neg hsh] at h
    cases h

theorem aiDiff_mutFree (w : World) (req : DiffReq) (token : Option String)
    (hs : shapeOk w.diffReply = false) :
    evAbsent isMutation (aiDiff w req token).2 := by
  rw [aiDiff_eq]
  intro e he
  rcases pipeline_mem he with ⟨base, hbody⟩ | rfl | ⟨d2, rfl⟩ | ⟨u, rfl⟩ | ⟨c, rfl, hm⟩
  · rcases evMem_rbind hbody with h1 | ⟨ctx, h2⟩
    · rcases loadFiles_mem h1 with ⟨q, rfl⟩
      rfl
    · rcases evMem_rbind2 h2 with h3 | ⟨diff, hdiff, h4⟩
      · rw [chatText_eq] at h3
        rcases List.mem_singleton.mp h3 with rfl
        rfl
      · have hd : diff = w.diffReply := chatText_fst_inv hdiff
        subst hd
        rw [if_neg (by simp [hs])] at h4
        cases h4
  · rfl
  · rfl
  · rfl
  · exact hm

theorem aiDiff_dryRun_mutFree (w : World) (req : DiffReq) (token : Option String)
    (hdr : req.dry_run = true) :
    evAbsent isMutation (aiDiff w req token).2 := by
  rw [aiDiff_eq]
  intro e he
  rcases pipeline_mem he with ⟨base, hbody⟩ | rfl | ⟨d2, rfl⟩ | ⟨u, rfl⟩ | ⟨c, rfl, hm⟩
  · rcases evMem_rbind hbody with h1 | ⟨ctx, h2⟩
    · rcases loadFiles_mem h1 with ⟨q, rfl⟩
      rfl
    · rcases evMem_rbind h2 with h3 | ⟨diff, h4⟩
      · rw [chatText_eq] at h3
        rcases List.mem_singleton.mp h3 with rfl
        rfl
      · by_cases hsh : shapeOk diff
        · rw [if_pos hsh] at h4
          rcases evMem_rbind h4 with h5 | ⟨u2, h6⟩
          · rw [if_pos hdr] at h5
            cases h5
          · cases h6
        · rw [if_neg hsh] at h4
          cases h4
  · rfl
  · rfl
  · rfl
  · exact hm

theorem aiPlan_mutFree (w : World) (req : PlanReq) (token : Option String) :
    evAbsent isMutation (aiPlan w req token).2 := by
  rw [aiPlan_eq]
  intro e he
  rcases pipeline_mem he with ⟨base, hbody⟩ | rfl | ⟨d2, rfl⟩ | ⟨u, rfl⟩ | ⟨c, rfl, hm⟩
  · rcases evMem_rbind hbody with h1 | ⟨samples, h2⟩
    · rcases loadFiles_mem h1 with ⟨q, rfl⟩
      rfl
    · rcases evMem_rbind h2 with h3 | ⟨out, h4⟩
      · rw [chatJson_snd] at h3
        rcases List.mem_singleton.mp h3 with rfl
        rfl
      · cases h4
  · rfl
  · rfl
  · rfl
  · exact hm

theorem evAbsent_of_count {p : Ev → Bool} {tr : List Ev}
    (h : evCount tr p = 0) : evAbsent p tr := by
  intro e he
  cases hp : p e with
  | false => rfl
  | true =>
    have hmem : e ∈ tr.filter p := List.mem_filter.mpr ⟨he, hp⟩
    rw [List.length_eq_zero.mp h] at hmem
    cases hmem

theorem isPush_isMutation {e : Ev} (h : isPush e = true) : isMutation e = true := by
  cases e with
  | cmd c => simp only [isPush] at h; simp [isMutation, h]
  | _ => simp [isPush] at h

theorem ghOpenPr_fst {w : World} (repo : String) (h : is2xx w.prStatus = true) :
    (ghOpenPr w repo).1 = Except.ok w.prUrl := by
  simp [ghOpenPr, rbind, emit, rok, h]

theorem aiPlan_prFree (w : World) (req : PlanReq) (token : Option String) :
    evAbsent isPrPost (aiPlan w req token).2 := by
  rw [aiPlan_eq]
  intro e he
  rcases pipeline_mem he with ⟨base, hbody⟩ | rfl | ⟨d2, rfl⟩ | ⟨u, rfl⟩ | ⟨c, rfl, hm⟩
  · rcases evMem_rbind hbody with h1 | ⟨samples, h2⟩
    · rcases loadFiles_mem h1 with ⟨q, rfl⟩
      rfl
    · rcases evMem_rbind h2 with h3 | ⟨out, h4⟩
      · rw [chatJson_snd] at h3
        rcases List.mem_singleton.mp h3 with rfl
        rfl
      · cases h4
  · rfl
  · rfl
  · rfl
  · rfl

theorem aiDiff_prFree (w : World) (req : DiffReq) (token : Option String) :
    evAbsent isPrPost (aiDiff w req token).2 := by
  rw [aiDiff_eq]
  intro e he
  rcases pipeline_mem he with ⟨base, hbody⟩ | rfl | ⟨d2, rfl⟩ | ⟨u, rfl⟩ | ⟨c, rfl, hm⟩
  · rcases evMem_rbind hbody with h1 | ⟨ctx, h2⟩
    · rcases loadFiles_mem h1 with ⟨q, rfl⟩
      rfl
    · rcases evMem_rbind h2 with h3 | ⟨diff, h4⟩
      · rw [chatText_eq] at h3
        rcases List.mem_singleton.mp h3 with rfl
        rfl
      · by_cases hsh : shapeOk diff
        · rw [if_pos hsh] at h4
          rcases evMem_rbind h4 with h5 | ⟨u2, h6⟩
          · by_cases hdr : req.dry_run
            · rw [if_pos hdr] at h5
              cases h5
            · rw [if_neg hdr] at h5
              rcases evMem_rbind h5 with h7 | ⟨branch, h8⟩
              · rcases gitNewBranch_mem h7 with ⟨b2, rfl⟩ | rfl <;> rfl
              · rcases evMem_rbind h8 with h9 | ⟨d3, h10⟩
                · rcases applyUnifiedDiff_mem h9 with rfl | rfl | rfl | rfl | rfl <;> rfl
                · rcases gitCommitPush_mem h10 with rfl | rfl <;> rfl
          · cases h6
        · rw [if_neg hsh] at h4
          cases h4
  · rfl
  · rfl
  · rfl
  · rfl

theorem aiApply_error_no_pr (w : World) (req : ApplyReq) (token : Option String)
    (he : resultOk (aiApply w req token).1 = false) :
    evCount (aiApply w req token).2 isPrPost = 0 ∨ is2xx w.prStatus = false := by
  by_cases h2 : is2xx w.prStatus
  · left
    apply evCount_eq_zero
    intro e hemem
    cases hpp : isPrPost e with
    | false => rfl
    | true =>
      exfalso
      rw [aiApply_eq] at hemem he
      by_cases ht : tokenMissing token
      · rw [pipeline_token _ _ _ _ _ _ ht] at hemem
        cases hemem
      · simp only [pipeline, if_neg ht] at hemem he
        rcases evMem_rbind2 hemem with h1 | ⟨base, hbase, hm1⟩
        · rcases resolveBase_mem h1 with ⟨u, rfl⟩
          simp [isPrPost] at hpp
        · rcases evMem_rbind2 hm1 with h3 | ⟨root, hroot, hm2⟩
          · rcases gitClone_mem h3 with rfl | ⟨r2, rfl⟩ | ⟨b, rfl⟩ | ⟨x, rfl⟩ | ⟨x, rfl⟩ <;>
              simp [isPrPost] at hpp
          · have hrt := gitClone_fst_root hroot
            subst hrt
            rcases evMem_withFinally hm2 with hm3 | hm3
            · rcases evMem_rbind2 hm3 with h4 | ⟨branch, hbr, hm4⟩
              · rcases gitNewBranch_mem h4 with ⟨b2, rfl⟩ | rfl <;> simp [isPrPost] at hpp
              · rcases evMem_rbind2 hm4 with h5 | ⟨a2, hau, hm5⟩
                · rcases applyUnifiedDiff_mem h5 with rfl | rfl | rfl | rfl | rfl <;>
                    simp [isPrPost] at hpp
                · rcases evMem_rbind2 hm5 with h6 | ⟨a3, hcp, hm6⟩
                  · rcases gitCommitPush_mem h6 with rfl | rfl <;> simp [isPrPost] at hpp
                  · -- the PR stage was reached: with a 2xx POST the whole body succeeds
                    rw [rbind_fst hbase, rbind_fst hroot, withFinally_fst,
                      rbind_fst hbr, rbind_fst hau, rbind_fst hcp] at he
                    rcases evMem_rbind2 hm6 with h7 | ⟨prUrl, hpr, hm7⟩
                    · cases hcr : req.create_pr with
                      | false =>
                        rw [hcr, if_neg (by decide)] at h7
                        cases h7
                      | true =>
                        rw [hcr, if_pos rfl] at he
                        rw [rbind_fst (show (rbind (ghOpenPr w req.repo)
                            (fun u => rok (some u))).1 =
                            Except.ok (some w.prUrl) by
                          rw [rbind_fst (ghOpenPr_fst req.repo h2)]
                          rfl)] at he
                        simp [rok, resultOk] at he
                    · rw [rbind_fst hpr] at he
                      simp [rok, resultOk] at he
            · rcases List.mem_singleton.mp hm3 with rfl
              simp [isPrPost] at hpp
  · exact Or.inr (by simp [h2])

theorem aiApply_push_guard (w : World) (req : ApplyReq) (token : Option String)
    {e : Ev} (he : e ∈ (aiApply w req token).2) (hp : isPush e = true) :
    (w.applyIndexOk || (w.patchCmdOk && w.addOk)) = true ∧ w.commitOk = true := by
  rw [aiApply_eq] at he
  by_cases ht : tokenMissing token
  · rw [pipeline_token _ _ _ _ _ _ ht] at he
    cases he
  · simp only [pipeline, if_neg ht] at he
    rcases evMem_rbind2 he with h1 | ⟨base, hbase, hm1⟩
    · rcases resolveBase_mem h1 with ⟨u, rfl⟩
      simp [isPush] at hp
    · rcases evMem_rbind2 hm1 with h3 | ⟨root, hroot, hm2⟩
      · rcases gitClone_mem h3 with rfl | ⟨r2, rfl⟩ | ⟨b, rfl⟩ | ⟨x, rfl⟩ | ⟨x, rfl⟩ <;>
          simp [isPush] at hp
      · have hrt := gitClone_fst_root hroot
        subst hrt
        rcases evMem_withFinally hm2 with hm3 | hm3
        · rcases evMem_rbind2 hm3 with h4 | ⟨branch, hbr, hm4⟩
          · rcases gitNewBranch_mem h4 with ⟨b2, rfl⟩ | rfl <;> simp [isPush] at hp
          · rcases evMem_rbind2 hm4 with h5 | ⟨a2, hau, hm5⟩
            · rcases applyUnifiedDiff_mem h5 with rfl | rfl | rfl | rfl | rfl <;>
                simp [isPush] at hp
            · have htier : (w.applyIndexOk || (w.patchCmdOk && w.addOk)) = true := by
                rw [← applyUnifiedDiff_fst w w.tmpRoot req.diff, hau]
                rfl
              rcases evMem_rbind2 hm5 with h6 | ⟨a3, hcp, hm6⟩
              · exact ⟨htier, gitCommitPush_push_ok h6 hp⟩
              · exfalso
                rcases evMem_rbind2 hm6 with h7 | ⟨prUrl, hpr, hm7⟩
                · cases hcr : req.create_pr with
                  | false =>
                    rw [hcr, if_neg (by decide)] at h7
                    cases h7
                  | true =>
                    rw [hcr, if_pos rfl] at h7
                    rcases evMem_rbind h7 with h8 | ⟨u2, h9⟩
                    · rw [ghOpenPr_snd] at h8
                      rcases List.mem_singleton.mp h8 with rfl
                      simp [isPush] at hp
                    · cases h9
                · cases hm7
        · rcases List.mem_singleton.mp hm3 with rfl
          simp [isPush] at hp

theorem aiAutofix_error_no_pr (w1 w2 w3 : World) (req : AutoReq) (token : Option String)
    (he : resultOk (aiAutofix w1 w2 w3 req token).1 = false) :
    evCount (aiAutofix w1 w2 w3 req token).2 isPrPost = 0 ∨
    is2xx w3.prStatus = false := by
  by_cases h2 : is2xx w3.prStatus
  · left
    by_cases ht : tokenMissing token
    · simp only [aiAutofix, if_pos ht]
      rfl
    · simp only [aiAutofix, if_neg ht] at he ⊢
      rcases hp : (aiPlan w1
          { repo := req.repo, branch := req.branch, goal := req.goal,
            sample_paths := some (pyOrList req.context_files []) } token).1 with e1 | planResp
      · rw [rbind_error _ hp]
        exact evCount_eq_zero (aiPlan_prFree w1 _ token)
      · rw [rbind_ok _ hp] at he ⊢
        rw [evCount_append]
        rw [evCount_eq_zero (aiPlan_prFree w1 _ token), Nat.zero_add]
        rcases hd : (aiDiff w2
            { repo := req.repo, branch := some planResp.branch, goal := req.goal,
              context_files := pyOrList req.context_files (planResp.plan.files.take 12),
              patch_mode := "unified", dry_run := true } token).1 with e2 | diffTxt
        · rw [rbind_error _ hd]
          exact evCount_eq_zero (aiDiff_prFree w2 _ token)
        · rw [rbind_ok _ hd] at he ⊢
          rw [evCount_append]
          rw [evCount_eq_zero (aiDiff_prFree w2 _ token), Nat.zero_add]
          rcases aiApply_error_no_pr w3 _ token he with h3 | h3
          · exact h3
          · rw [h2] at h3
            cases h3
  · exact Or.inr (by simp [h2])

theorem aiAutofix_mut_shape (w1 w2 w3 : World) (req : AutoReq) (token : Option String)
    {e : Ev} (he : e ∈ (aiAutofix w1 w2 w3 req token).2) (hm : isMutation e = true) :
    shapeOk w2.diffReply = true := by
  by_cases hsh : shapeOk w2.diffReply
  · exact hsh
  · exfalso
    by_cases ht : tokenMissing token
    · simp only [aiAutofix, if_pos ht] at he
      cases he
    · simp only [aiAutofix, if_neg ht] at he
      rcases evMem_rbind2 he with h1 | ⟨planResp, hplan, hm1⟩
      · rw [aiPlan_mutFree w1 _ token e h1] at hm
        cases hm
      · rcases evMem_rbind2 hm1 with h3 | ⟨diffTxt, hdiff, hm2⟩
        · rw [aiDiff_mutFree w2 _ token (by simp [hsh]) e h3] at hm
          cases hm
        · exact hsh (aiDiff_fst_ok hdiff).1

theorem aiDiff_push_guard (w : World) (req : DiffReq) (token : Option String)
    {e : Ev} (he : e ∈ (aiDiff w req token).2) (hp : isPush e = true) :
    (w.applyIndexOk || (w.patchCmdOk && w.addOk)) = true ∧ w.commitOk = true := by
  rw [aiDiff_eq] at he
  by_cases ht : tokenMissing token
  · rw [pipeline_token _ _ _ _ _ _ ht] at he
    cases he
  · simp only [pipeline, if_neg ht] at he
    rcases evMem_rbind2 he with h1 | ⟨base, hbase, hm1⟩
    · rcases resolveBase_mem h1 with ⟨u, rfl⟩
      simp [isPush] at hp
    · rcases evMem_rbind2 hm1 with h3 | ⟨root, hroot, hm2⟩
      · rcases gitClone_mem h3 with rfl | ⟨r2, rfl⟩ | ⟨b, rfl⟩ | ⟨x, rfl⟩ | ⟨x, rfl⟩ <;>
          simp [isPush] at hp
      · have hrt := gitClone_fst_root hroot
        subst hrt
        rcases evMem_withFinally hm2 with hm3 | hm3
        · rcases evMem_rbind2 hm3 with h4 | ⟨ctx, hctx, hm4⟩
          · rcases loadFiles_mem h4 with ⟨q, rfl⟩
            simp [isPush] at hp
          · rcases evMem_rbind2 hm4 with h5 | ⟨diff, hdiff, hm5⟩
            · rw [chatText_eq] at h5
              rcases List.mem_singleton.mp h5 with rfl
              simp [isPush] at hp
            · by_cases hsh : shapeOk diff
              · rw [if_pos hsh] at hm5
                rcases evMem_rbind2 hm5 with h6 | ⟨u2, hu2, hm6⟩
                · by_cases hdr : req.dry_run
                  · rw [if_pos hdr] at h6
                    cases h6
                  · rw [if_neg hdr] at h6
                    rcases evMem_rbind2 h6 with h7 | ⟨branch, hbr, hm7⟩
                    · rcases gitNewBranch_mem h7 with ⟨b2, rfl⟩ | rfl <;>
                        simp [isPush] at hp
                    · rcases evMem_rbind2 hm7 with h8 | ⟨a2, hau, hm8⟩
                      · rcases applyUnifiedDiff_mem h8 with rfl | rfl | rfl | rfl | rfl <;>
                          simp [isPush] at hp
                      · have htier :
                            (w.applyIndexOk || (w.patchCmdOk && w.addOk)) = true := by
                          rw [← applyUnifiedDiff_fst w w.tmpRoot diff, hau]
                          rfl
                        exact ⟨htier, gitCommitPush_push_ok hm8 hp⟩
                · cases hm6
              · rw [if_neg hsh] at hm5
                cases hm5
        · rcases List.mem_singleton.mp hm3 with rfl
          simp [isPush] at hp

theorem aiAutofix_push_guard (w1 w2 w3 : World) (req : AutoReq) (token : Option String)
    {e : Ev} (he : e ∈ (aiAutofix w1 w2 w3 req token).2) (hp : isPush e = true) :
    (w3.applyIndexOk || (w3.patchCmdOk && w3.addOk)) = true ∧ w3.commitOk = true := by
  by_cases ht : tokenMissing token
  · simp only [aiAutofix, if_pos ht] at he
    cases he
  · simp only [aiAutofix, if_neg ht] at he
    rcases evMem_rbind2 he with h1 | ⟨planResp, hplan, hm1⟩
    · exact absurd (isPush_isMutation hp)
        (by simp [aiPlan_mutFree w1 _ token e h1])
    · rcases evMem_rbind2 hm1 with h2 | ⟨diffTxt, hdiff, hm2⟩
      · exact absurd (isPush_isMutation hp)
          (by simp [aiDiff_dryRun_mutFree w2 _ token rfl e h2])
      · exact aiApply_push_guard w3 _ token hm2 hp

theorem take8_length {s : String} (h : s.length = 32) : (strTake s 8).length = 8 := by
  have h3 : (strTake s 8).length = (s.data.take 8).length := rfl
  rw [h3, List.length_take]
  have h4 : s.data.length = 32 := h
  omega

theorem branchName_inj {s1 s2 : String} (h : s1 ≠ s2) :
    "repeditor/" ++ s1 ≠ "repeditor/" ++ s2 := by
  intro hcontra
  exact h (by
    have hd := congrArg String.data hcontra
    simp only [String.data_append] at hd
    exact String.ext (List.append_cancel_left hd))

theorem aiFile_readFile_contained (w : World) (repo path : String)
    (br : Option String) (token : Option String) {q : List String}
    (he : Ev.readFile q ∈ (aiFile w repo path br token).2) :
    w.tmpRoot.isPrefixOf q = true := by
  rw [aiFile_eq] at he
  rcases pipeline_mem he with ⟨base, hbody⟩ | heq | ⟨d2, heq⟩ | ⟨u, heq⟩ | ⟨c, heq, hm⟩
  · obtain ⟨heq2, hpre⟩ := aiFile_body_mem hbody
    injection heq2 with h
    subst h
    exact hpre
  · cases heq
  · cases heq
  · cases heq
  · cases heq

theorem aiFile_escape (w : World) (repo path : String) (br : Option String)
    (token : Option String) (ht : tokenMissing token = false)
    (hr : resolveOk w br) (ha : acquireOk w repo)
    (hp : w.tmpRoot.isPrefixOf (resolvePath (pyJoin w.tmpRoot path)) = false) :
    (aiFile w repo path br token).1 =
      Except.error (Err.httpExc 400 "Path escapes repository") := by
  rw [aiFile_eq]
  obtain ⟨base, cmds, hbase, heq, hcmds⟩ := pipeline_decomp ht hr ha
  rw [heq]
  simp only
  rw [if_neg (by simp [hp])]
  rfl

theorem aiDiff_shape_result (w : World) (req : DiffReq) (token : Option String)
    (ht : tokenMissing token = false) (hr : resolveOk w req.branch)
    (ha : acquireOk w req.repo) (hs : shapeOk w.diffReply = false) :
    (aiDiff w req token).1 =
      Except.error (Err.httpExc 500 "Model did not return a unified diff.") := by
  rw [aiDiff_eq]
  obtain ⟨base, cmds, hbase, heq, hcmds⟩ := pipeline_decomp ht hr ha
  rw [heq]
  simp only
  obtain ⟨l, hl⟩ := loadFiles_fst w w.tmpRoot 200000 (req.context_files.take 50)
  rw [rbind_fst hl, rbind_fst (show (chatText w (codeModel w) l).1 =
    Except.ok w.diffReply from rfl)]
  rw [if_neg (by simp [hs])]
  rfl

set_option maxHeartbeats 1600000 in
theorem aiDiff_newBranch_name (w : World) (req : DiffReq) (token : Option String)
    {s : String}
    (he : Ev.cmd ["git", "checkout", "-b", s] ∈ (aiDiff w req token).2) :
    s = "repeditor/" ++ strTake w.uuidHex 8 := by
  rw [aiDiff_eq] at he
  by_cases ht : tokenMissing token
  · rw [pipeline_token _ _ _ _ _ _ ht] at he
    cases he
  · simp only [pipeline, if_neg ht] at he
    rcases evMem_rbind he with h1 | ⟨base, h2⟩
    · rcases resolveBase_mem h1 with ⟨u, hequ⟩
      cases hequ
    · rcases evMem_rbind h2 with h3 | ⟨root, h4⟩
      · rcases gitClone_mem h3 with hequ | ⟨r2, hequ⟩ | ⟨b, hequ⟩ | ⟨x, hequ⟩ | ⟨x, hequ⟩ <;>
          simp [List.cons_eq_cons] at hequ
      · rcases evMem_withFinally h4 with h5 | h5
        · rcases evMem_rbind h5 with h6 | ⟨ctx, h7⟩
          · rcases loadFiles_mem h6 with ⟨q, hequ⟩
            cases hequ
          · rcases evMem_rbind h7 with h8 | ⟨diff, h9⟩
            · rw [chatText_eq] at h8
              rcases List.mem_singleton.mp h8 with hequ
              cases hequ
            · by_cases hsh : shapeOk diff
              · rw [if_pos hsh] at h9
                rcases evMem_rbind h9 with h10 | ⟨u2, h11⟩
                · by_cases hdr : req.dry_run
                  · rw [if_pos hdr] at h10
                    cases h10
                  · rw [if_neg hdr] at h10
                    rcases evMem_rbind h10 with h12 | ⟨branch, h13⟩
                    · rcases gitNewBranch_mem h12 with ⟨b2, hequ⟩ | hequ
                      · simp [List.cons_eq_cons] at hequ
                      · injection hequ with hc
                        simp only [List.cons_eq_cons] at hc
                        exact hc.2.2.2.1
                    · rcases evMem_rbind h13 with h14 | ⟨d3, h15⟩
                      · rcases applyUnifiedDiff_mem h14 with hequ | hequ | hequ | hequ | hequ <;>
                          simp [List.cons_eq_cons] at hequ
                      · rcases gitCommitPush_mem h15 with hequ | hequ <;>
                          simp [List.cons_eq_cons] at hequ
                · cases h11
              · rw [if_neg hsh] at h9
                cases h9
        · cases List.mem_singleton.mp h5

theorem ghGetDefaultBranch_fallback (w : World) (repo : String)
    (h2 : is2xx w.ghStatus = true)
    (hf : w.ghDefaultBranch = none ∨ w.ghDefaultBranch = some "") :
    ghGetDefaultBranch w repo =
      (Except.ok "main", [Ev.httpGet ("https://api.github.com/repos/" ++ repo)]) := by
  rcases hf with hf | hf <;>
    simp [ghGetDefaultBranch, rbind, emit, rok, h2, hf, pyOrStr]

/-- C6: every request to plan, diff, apply, or autofix that lacks the
caller-supplied credential header receives the fixed 401 before any
workspace is acquired: the result is exactly the 401 error and the trace is
empty, so no clone subprocess runs and no temporary directory is created. -/
theorem missing_token_rejected_before_acquire
    (w wd wa w1 w2 w3 : World) (pr : PlanReq) (dr : DiffReq) (ar : ApplyReq)
    (aur : AutoReq) :
    aiPlan w pr none = (Except.error authErr, []) ∧
    aiDiff wd dr none = (Except.error authErr, []) ∧
    aiApply wa ar none = (Except.error authErr, []) ∧
    aiAutofix w1 w2 w3 aur none = (Except.error authErr, []) :=
  ⟨rfl, rfl, rfl, rfl⟩

/-- C10: when no explicit branch is given and the hosting platform answers
the repository GET with a 2xx response whose default_branch field is
missing, null, or empty, the base branch resolves to main and the operation
proceeds to acquire a workspace rather than failing. -/
theorem default_branch_falls_back_to_main (w : World) (repo g : String)
    (sp : Option (List String)) (token : Option String)
    (h2 : is2xx w.ghStatus = true)
    (hf : w.ghDefaultBranch = none ∨ w.ghDefaultBranch = some "")
    (ht : tokenMissing token = false) (ha : acquireOk w repo) :
    ghGetDefaultBranch w repo =
      (Except.ok "main", [Ev.httpGet ("https://api.github.com/repos/" ++ repo)]) ∧
    resolveBase w repo none =
      (Except.ok "main", [Ev.httpGet ("https://api.github.com/repos/" ++ repo)]) ∧
    Ev.mkdtemp w.tmpRoot ∈
      (aiPlan w { repo := repo, branch := none, goal := g, sample_paths := sp }
        token).2 := by
  refine ⟨ghGetDefaultBranch_fallback w repo h2 hf, ?_, ?_⟩
  · rw [show resolveBase w repo none = ghGetDefaultBranch w repo from rfl]
    exact ghGetDefaultBranch_fallback w repo h2 hf
  · rw [aiPlan_eq]
    show Ev.mkdtemp w.tmpRoot ∈
      (pipeline w repo (token.getD "") none token
        (fun base root =>
          rbind (loadFiles w root 65536 ((sp.getD []).take 20)) (fun samples =>
          rbind (chatJson w (reasonerModel w) samples) (fun out =>
          rok ({ ok := true, plan := out, branch := base } : PlanResp))))).2
    obtain ⟨base, cmds, hbase, heq, hcmds⟩ := pipeline_decomp ht (Or.inr h2) ha
    rw [heq]
    exact List.mem_append.mpr (Or.inr (List.mem_cons_self _ _))

/-- C10 witness: at a concrete 2xx response with no default_branch value,
the resolution yields main. -/
theorem default_branch_falls_back_to_main_witness :
    ghGetDefaultBranch wNoDefault "acme/widgets" =
      (Except.ok "main", [Ev.httpGet "https://api.github.com/repos/acme/widgets"]) :=
  (default_branch_falls_back_to_main wNoDefault "acme/widgets" "fix" none
    (some "tok") (by decide) (Or.inl rfl) (by decide)
    ⟨⟨rfl, rfl, rfl, rfl⟩, ⟨("acme", "widgets"), by decide⟩⟩).1

/-- C1 counterexample: the claim asserts that every filesystem path derived
from user or model input resolves inside the owning workspace root, for the
plan sample paths and diff context files as well as the file-read path. At
a concrete run, a plan sample path and a diff context file containing the
traversal sequence ../../etc/passwd are joined to the clone root and read,
the resolved path /etc/passwd lies outside the root, no error is raised,
and the plan request succeeds. -/
theorem plan_sample_escape_counterexample :
    Ev.readFile ["etc", "passwd"] ∈ (aiPlan wBase planEscapeReq (some "tok")).2 ∧
    (["tmp", "ai-repo-1"].isPrefixOf ["etc", "passwd"]) = false ∧
    resultOk (aiPlan wBase planEscapeReq (some "tok")).1 = true ∧
    Ev.readFile ["etc", "passwd"] ∈ (aiDiff wBase diffEscapeReq (some "tok")).2 := by
  refine ⟨by decide, by decide, by decide, by decide⟩

/-- C1 (amended): containment is enforced only on the file-read path: every
file read performed by ai_file lies inside the clone root, and a requested
path whose resolution escapes the root yields the 400 path-security error;
plan sample paths and diff context files are joined to the root and read
with no containment check, so traversal sequences there read files outside
the workspace root. -/
theorem path_containment_file_read_only
    (w : World) (repo path : String) (br : Option String) (token : Option String) :
    (∀ q, Ev.readFile q ∈ (aiFile w repo path br token).2 →
      w.tmpRoot.isPrefixOf q = true) ∧
    (tokenMissing token = false → resolveOk w br → acquireOk w repo →
      w.tmpRoot.isPrefixOf (resolvePath (pyJoin w.tmpRoot path)) = false →
      (aiFile w repo path br token).1 =
        Except.error (Err.httpExc 400 "Path escapes repository")) :=
  ⟨fun _ hq => aiFile_readFile_contained w repo path br token hq,
   fun ht hr ha hp => aiFile_escape w repo path br token ht hr ha hp⟩

/-- C1 witness: a file-read request for ../../etc/passwd is rejected with
the 400 path-security error, and the read that ai_file performs for an
ordinary path stays inside the clone root. -/
theorem path_containment_file_read_only_witness :
    (aiFile wBase "acme/widgets" "../../etc/passwd" none (some "tok")).1 =
      Except.error (Err.httpExc 400 "Path escapes repository") ∧
    wBase.tmpRoot.isPrefixOf ["tmp", "ai-repo-1", "src", "a.py"] = true :=
  ⟨(path_containment_file_read_only wBase "acme/widgets" "../../etc/passwd" none
      (some "tok")).2 (by decide) (Or.inr (by decide))
      ⟨⟨rfl, rfl, rfl, rfl⟩, ⟨("acme", "widgets"), by decide⟩⟩ (by decide),
   (path_containment_file_read_only wBase "acme/widgets" "src/a.py" none
      (some "tok")).1 ["tmp", "ai-repo-1", "src", "a.py"] (by decide)⟩

/-- C2 counterexample: the claim asserts that every operation that acquires
a workspace deletes its directory exactly once on every exit path. When the
clone subprocess fails after mkdtemp created the directory (for example a
bad credential), the plan endpoint exits with an error, the temporary
directory was created, and no rmtree ever runs: the directory leaks. -/
theorem workspace_leak_counterexample :
    Ev.mkdtemp ["tmp", "ai-repo-1"] ∈ (aiPlan wCloneFail planPlainReq (some "tok")).2 ∧
    evCount (aiPlan wCloneFail planPlainReq (some "tok")).2
      (isRmtree ["tmp", "ai-repo-1"]) = 0 ∧
    resultOk (aiPlan wCloneFail planPlainReq (some "tok")).1 = false := by
  refine ⟨by decide, by decide, by decide⟩

/-- C2 (amended): once the clone helper returns its handle (all four of its
subprocess steps exit zero), every operation removes exactly as many
workspace directories as it creates, on every exit path, creating at most
one per single operation; removal uses ignore_errors so a failing removal
cannot change the outcome. When the clone helper itself fails after
creating the temporary directory, that directory is not removed. -/
theorem workspace_release_exactly_once
    (w w1 w2 w3 : World) (pr : PlanReq) (dr : DiffReq) (ar : ApplyReq)
    (aur : AutoReq) (repo path : String) (br : Option String)
    (token : Option String) (h : cloneStepsOk w)
    (h1 : cloneStepsOk w1) (h2 : cloneStepsOk w2) (h3 : cloneStepsOk w3) :
    (balanced (aiPlan w pr token).2 ∧
      evCount (aiPlan w pr token).2 isAnyMkdtemp ≤ 1) ∧
    (balanced (aiDiff w dr token).2 ∧
      evCount (aiDiff w dr token).2 isAnyMkdtemp ≤ 1) ∧
    (balanced (aiApply w ar token).2 ∧
      evCount (aiApply w ar token).2 isAnyMkdtemp ≤ 1) ∧
    (balanced (aiTree w repo br token).2 ∧
      evCount (aiTree w repo br token).2 isAnyMkdtemp ≤ 1) ∧
    (balanced (aiFile w repo path br token).2 ∧
      evCount (aiFile w repo path br token).2 isAnyMkdtemp ≤ 1) ∧
    balanced (aiAutofix w1 w2 w3 aur token).2 :=
  ⟨aiPlan_ws w pr token h, aiDiff_ws w dr token h, aiApply_ws w ar token h,
   aiTree_ws w repo br token h, aiFile_ws w repo path br token h,
   aiAutofix_ws w1 w2 w3 aur token h1 h2 h3⟩

/-- C2 witness: at a concrete all-succeeding environment the plan endpoint
removes exactly the directories it creates. -/
theorem workspace_release_exactly_once_witness :
    cloneStepsOk wBase ∧ balanced (aiPlan wBase planPlainReq (some "tok")).2 :=
  ⟨⟨rfl, rfl, rfl, rfl⟩,
   (workspace_release_exactly_once wBase wBase wBase wBase planPlainReq
      diffPlainReq applyPlainReq autoPlainReq "acme/widgets" "src/a.py" none
      (some "tok") ⟨rfl, rfl, rfl, rfl⟩ ⟨rfl, rfl, rfl, rfl⟩
      ⟨rfl, rfl, rfl, rfl⟩ ⟨rfl, rfl, rfl, rfl⟩).1.1⟩

/-- C3 counterexample: the claim asserts that when an operation fails, no
branch reaches the remote repository. At a concrete apply run where the
push succeeds and the subsequent pull-request POST is rejected with a 422,
the operation returns an error yet the push command ran and exited zero:
the pushed branch is on the remote. -/
theorem pushed_branch_on_pr_failure_counterexample :
    resultOk (aiApply wPrFail applyPlainReq (some "tok")).1 = false ∧
    Ev.cmd ["git", "push", "origin", "repeditor/01234567"] ∈
      (aiApply wPrFail applyPlainReq (some "tok")).2 ∧
    wPrFail.pushOk = true := by
  refine ⟨by decide, by decide, by decide⟩

/-- C3 (amended): plan and diff never issue a pull-request POST; when apply
or autofix returns an error, no pull request has been created on the remote
(either no POST was sent, or the platform rejected it); and in every
operation that can push — apply, non-dry-run diff, and autofix — a push is
attempted only after the patch fully applied through one of the two tiers
and the commit succeeded, so no half-applied patch reaches the remote; but
a branch pushed before a failing pull-request creation remains on the
remote. -/
theorem no_partial_remote_effects
    (w w1 w2 w3 : World) (pr : PlanReq) (dr : DiffReq) (ar : ApplyReq)
    (aur : AutoReq) (token : Option String) :
    evAbsent isPrPost (aiPlan w pr token).2 ∧
    evAbsent isPrPost (aiDiff w dr token).2 ∧
    (resultOk (aiApply w ar token).1 = false →
      evCount (aiApply w ar token).2 isPrPost = 0 ∨ is2xx w.prStatus = false) ∧
    (resultOk (aiAutofix w1 w2 w3 aur token).1 = false →
      evCount (aiAutofix w1 w2 w3 aur token).2 isPrPost = 0 ∨
        is2xx w3.prStatus = false) ∧
    (∀ e ∈ (aiApply w ar token).2, isPush e = true →
      (w.applyIndexOk || (w.patchCmdOk && w.addOk)) = true ∧ w.commitOk = true) ∧
    (∀ e ∈ (aiDiff w dr token).2, isPush e = true →
      (w.applyIndexOk || (w.patchCmdOk && w.addOk)) = true ∧ w.commitOk = true) ∧
    (∀ e ∈ (aiAutofix w1 w2 w3 aur token).2, isPush e = true →
      (w3.applyIndexOk || (w3.patchCmdOk && w3.addOk)) = true ∧
        w3.commitOk = true) :=
  ⟨aiPlan_prFree w pr token, aiDiff_prFree w dr token,
   aiApply_error_no_pr w ar token, aiAutofix_error_no_pr w1 w2 w3 aur token,
   fun _ he hp => aiApply_push_guard w ar token he hp,
   fun _ he hp => aiDiff_push_guard w dr token he hp,
   fun _ he hp => aiAutofix_push_guard w1 w2 w3 aur token he hp⟩

/-- C3 witness: at the concrete world where the pull-request POST is
rejected, the apply operation errors and no pull request was created; and
the push performed by a concrete non-dry-run diff run happened with both
the patch application and the commit having succeeded. -/
theorem no_partial_remote_effects_witness :
    resultOk (aiApply wPrFail applyPlainReq (some "tok")).1 = false ∧
    (evCount (aiApply wPrFail applyPlainReq (some "tok")).2 isPrPost = 0 ∨
      is2xx wPrFail.prStatus = false) ∧
    ((wBase.applyIndexOk || (wBase.patchCmdOk && wBase.addOk)) = true ∧
      wBase.commitOk = true) :=
  ⟨by decide,
   (no_partial_remote_effects wPrFail wBase wBase wPrFail planPlainReq
      diffPlainReq applyPlainReq autoPlainReq (some "tok")).2.2.1 (by decide),
   (no_partial_remote_effects wBase wBase wBase wBase planPlainReq
      diffApplyReq applyPlainReq autoPlainReq (some "tok")).2.2.2.2.2.1
     (Ev.cmd ["git", "push", "origin", "repeditor/01234567"]) (by decide)
     (by decide)⟩

/-- C4 counterexample: the claim asserts that in the apply operation no
mutation is attempted until the diff passed the syntactic shape check. The
apply endpoint performs no shape check: at a concrete run whose diff is
prose, the patch temp file is written and git apply is invoked even though
the diff fails the shape check. -/
theorem apply_without_shape_check_counterexample :
    shapeOk applyBadDiffReq.diff = false ∧
    Ev.cmd ["git", "apply", "--index",
        "/tmp/ai-repo-1/.repeditor_patch_fedcba9876543210fedcba9876543210.diff"] ∈
      (aiApply wApplyFail applyBadDiffReq (some "tok")).2 ∧
    isMutation (Ev.cmd ["git", "apply", "--index",
        "/tmp/ai-repo-1/.repeditor_patch_fedcba9876543210fedcba9876543210.diff"]) = true ∧
    resultOk (aiApply wApplyFail applyBadDiffReq (some "tok")).1 = false := by
  refine ⟨by decide, by decide, by decide, by decide⟩

/-- C4 (amended): the plan operation never mutates the workspace; in the
diff operation a mutation event can occur only when the model reply passed
the shape check; and in autofix a mutation can occur only when the diff
stage reply passed the shape check. The apply operation mutates without any
shape check. -/
theorem mutation_only_after_shape_check
    (w w1 w2 w3 : World) (pr : PlanReq) (dr : DiffReq) (aur : AutoReq)
    (token : Option String) :
    evAbsent isMutation (aiPlan w pr token).2 ∧
    (∀ e ∈ (aiDiff w dr token).2, isMutation e = true →
      shapeOk w.diffReply = true) ∧
    (∀ e ∈ (aiAutofix w1 w2 w3 aur token).2, isMutation e = true →
      shapeOk w2.diffReply = true) := by
  refine ⟨aiPlan_mutFree w pr token, ?_, fun e he hm => aiAutofix_mut_shape w1 w2 w3 aur token he hm⟩
  intro e he hm
  by_cases hsh : shapeOk w.diffReply
  · exact hsh
  · rw [aiDiff_mutFree w dr token (by simp [hsh]) e he] at hm
    cases hm

/-- C4 witness: at a concrete non-dry-run diff whose reply is a well-formed
diff, a mutation occurs and the theorem yields that the reply passed the
shape check. -/
theorem mutation_only_after_shape_check_witness :
    shapeOk wBase.diffReply = true :=
  (mutation_only_after_shape_check wBase wBase wBase wBase planPlainReq
      diffApplyReq autoPlainReq (some "tok")).2.1
    (Ev.cmd ["git", "apply", "--index",
      "/tmp/ai-repo-1/.repeditor_patch_fedcba9876543210fedcba9876543210.diff"])
    (by decide) (by decide)

/-- C5 counterexample: the claim asserts that every reply not beginning
with a diff header yields the format error. The check strips leading
whitespace first: a reply beginning with a newline before its header does
not begin with a recognized header, yet the diff endpoint accepts it and
returns it. -/
theorem lstripped_shape_check_counterexample :
    strStartsWith wWsReply.diffReply "diff " = false ∧
    strStartsWith wWsReply.diffReply "--- " = false ∧
    (aiDiff wWsReply diffPlainReq (some "tok")).1 = Except.ok wWsReply.diffReply := by
  refine ⟨by decide, by decide, rfl⟩

/-- C5 (amended): every reply from the diff-synthesis model that, after
stripping leading whitespace, does not begin with a recognized diff header
yields the format error (when the pipeline reaches the model call) and
causes zero workspace mutation, regardless of the dry-run flag. -/
theorem diff_format_error_blocks_mutation
    (w : World) (req : DiffReq) (token : Option String)
    (ht : tokenMissing token = false) (hr : resolveOk w req.branch)
    (ha : acquireOk w req.repo) (hs : shapeOk w.diffReply = false) :
    (aiDiff w req token).1 =
      Except.error (Err.httpExc 500 "Model did not return a unified diff.") ∧
    evAbsent isMutation (aiDiff w req token).2 :=
  ⟨aiDiff_shape_result w req token ht hr ha hs, aiDiff_mutFree w req token hs⟩

/-- C5 witness: a prose reply on a non-dry-run diff request yields exactly
the format error. -/
theorem diff_format_error_blocks_mutation_witness :
    (aiDiff wBadReply diffApplyReq (some "tok")).1 =
      Except.error (Err.httpExc 500 "Model did not return a unified diff.") :=
  (diff_format_error_blocks_mutation wBadReply diffApplyReq (some "tok")
    (by decide) (Or.inr (by decide))
    ⟨⟨rfl, rfl, rfl, rfl⟩, ⟨("acme", "widgets"), by decide⟩⟩ (by decide)).1

/-- C7: apply_unified_diff writes the diff to a uuid-suffixed temp file
inside the workspace as its first action, first attempts the strict
index-based git apply, invokes the context-matching patch fallback exactly
when the strict tier failed (followed by git add -A), removes the temp file
as the final action on every path, and fails exactly when both tiers fail.
The hypothesis states that the drawn uuid contains no path separator, as is
always true of uuid4().hex, in the form the join then takes. -/
theorem apply_unified_diff_two_tier (w : World) (root : List String) (d : String)
    (hsep : patchTmp w root =
      root ++ [".repeditor_patch_" ++ w.patchUuid ++ ".diff"]) :
    (∃ evs, (applyUnifiedDiff w root d).2 =
        Ev.writeFile (patchTmp w root) d :: (evs ++ [Ev.unlink (patchTmp w root)])) ∧
    root.isPrefixOf (patchTmp w root) = true ∧
    evCount (applyUnifiedDiff w root d).2 (isUnlink (patchTmp w root)) = 1 ∧
    ((Ev.cmd ["patch", "-p0", "-i", pathStr (patchTmp w root)] ∈
        (applyUnifiedDiff w root d).2) ↔ w.applyIndexOk = false) ∧
    ((applyUnifiedDiff w root d).2.filter isCmdEv).head? =
      some (Ev.cmd ["git", "apply", "--index", pathStr (patchTmp w root)]) ∧
    resultOk (applyUnifiedDiff w root d).1 =
      (w.applyIndexOk || (w.patchCmdOk && w.addOk)) := by
  have hpre : root.isPrefixOf (patchTmp w root) = true := by
    rw [hsep]
    simp only [List.isPrefixOf_iff_prefix]
    exact List.prefix_append _ _
  cases h1 : w.applyIndexOk with
  | true =>
    refine ⟨⟨[Ev.cmd ["git", "apply", "--index", pathStr (patchTmp w root)]], ?_⟩,
      hpre, ?_, ?_, ?_, ?_⟩ <;>
      simp [applyUnifiedDiff, run, rbind, rcatch, withFinally, emit, rok, rerr,
        resultOk, evCount, isUnlink, isCmdEv, h1, List.filter]
  | false =>
    cases h2 : w.patchCmdOk with
    | true =>
      refine ⟨⟨[Ev.cmd ["git", "apply", "--index", pathStr (patchTmp w root)],
          Ev.cmd ["patch", "-p0", "-i", pathStr (patchTmp w root)],
          Ev.cmd ["git", "add", "-A"]], ?_⟩, hpre, ?_, ?_, ?_, ?_⟩ <;>
        cases h3 : w.addOk <;>
        simp [applyUnifiedDiff, run, rbind, rcatch, withFinally, emit, rok, rerr,
          resultOk, evCount, isUnlink, isCmdEv, h1, h2, h3, List.filter]
    | false =>
      refine ⟨⟨[Ev.cmd ["git", "apply", "--index", pathStr (patchTmp w root)],
          Ev.cmd ["patch", "-p0", "-i", pathStr (patchTmp w root)]], ?_⟩,
        hpre, ?_, ?_, ?_, ?_⟩ <;>
        simp [applyUnifiedDiff, run, rbind, rcatch, withFinally, emit, rok, rerr,
          resultOk, evCount, isUnlink, isCmdEv, h1, h2, List.filter]

/-- C7 witness: at a concrete uuid and workspace the temp file is unlinked
exactly once and the strict tier decides the outcome. -/
theorem apply_unified_diff_two_tier_witness :
    evCount (applyUnifiedDiff wBase ["tmp", "r"] "x").2
      (isUnlink (patchTmp wBase ["tmp", "r"])) = 1 ∧
    resultOk (applyUnifiedDiff wBase ["tmp", "r"] "x").1 =
      (wBase.applyIndexOk || (wBase.patchCmdOk && wBase.addOk)) :=
  ⟨(apply_unified_diff_two_tier wBase ["tmp", "r"] "x" (by decide)).2.2.1,
   (apply_unified_diff_two_tier wBase ["tmp", "r"] "x" (by decide)).2.2.2.2.2⟩

/-- C8 counterexample: the claim asserts the randomized suffix guarantees
no collision across repeated calls. Two calls can draw the same
8-character hex slug — both 00000000 is a possible pair of draws — and
then the branch names coincide: nothing in the code prevents the
collision. -/
theorem branch_slug_collision_counterexample :
    ¬ (∀ (wa wb : World) (s1 s2 b1 b2 : String),
        validSlug s1 → validSlug s2 →
        (gitNewBranch wa (some "main") s1).1 = Except.ok b1 →
        (gitNewBranch wb (some "main") s2).1 = Except.ok b2 →
        b1 ≠ b2) := by
  intro h
  exact h wBase wBase "00000000" "00000000"
    ("repeditor/" ++ "00000000") ("repeditor/" ++ "00000000")
    (by refine ⟨by decide, by decide⟩) (by refine ⟨by decide, by decide⟩)
    rfl rfl rfl

/-- C8 (amended): the branch-creation helper checks out the base branch and
then creates and switches to the fixed prefix repeditor/ followed by the
slug; distinct slugs give distinct branch names (so collisions are exactly
as unlikely as slug collisions, not impossible); the slug drawn at the diff
call site is the 8-character prefix of the 32-character uuid hex, and every
branch created during a diff operation carries exactly that slug. -/
theorem branch_naming
    (w : World) (b slug1 slug2 : String) (token : Option String) (req : DiffReq)
    (hb : b ≠ "") (h1 : w.branchCheckoutOk = true) (h2 : w.newBranchOk = true)
    (hne : slug1 ≠ slug2) (h32 : w.uuidHex.length = 32) :
    gitNewBranch w (some b) slug1 =
      (Except.ok ("repeditor/" ++ slug1),
       [Ev.cmd ["git", "checkout", b],
        Ev.cmd ["git", "checkout", "-b", "repeditor/" ++ slug1]]) ∧
    "repeditor/" ++ slug1 ≠ "repeditor/" ++ slug2 ∧
    (strTake w.uuidHex 8).length = 8 ∧
    (∀ s, Ev.cmd ["git", "checkout", "-b", s] ∈ (aiDiff w req token).2 →
      s = "repeditor/" ++ strTake w.uuidHex 8) :=
  ⟨gitNewBranch_ok_eq w b slug1 hb h1 h2, branchName_inj hne, take8_length h32,
   fun _ hs => aiDiff_newBranch_name w req token hs⟩

/-- C8 witness: at a concrete slug the helper checks out the base branch
and creates repeditor/01234567, and the slug drawn from the concrete uuid
has exactly 8 characters. -/
theorem branch_naming_witness :
    gitNewBranch wBase (some "main") "01234567" =
      (Except.ok ("repeditor/" ++ "01234567"),
       [Ev.cmd ["git", "checkout", "main"],
        Ev.cmd ["git", "checkout", "-b", "repeditor/" ++ "01234567"]]) ∧
    (strTake wBase.uuidHex 8).length = 8 :=
  have h := branch_naming wBase "main" "01234567" "89abcdef" (some "tok")
    diffPlainReq (by decide) rfl rfl (by decide) (by decide)
  ⟨h.1, h.2.2.1⟩

/-- C9 counterexample: the claim asserts the whitelisted shell tool never
executes a program outside the whitelist. The gate inspects only the first
whitespace-separated token and then hands the whole string to a shell: the
command string with a semicolon after a whitelisted first token passes the
gate, and the shell also runs rm, which is not whitelisted. -/
theorem shell_whitelist_counterexample :
    ¬ (∀ (c : String) (progs : List String),
        execute_command c = ExecOutcome.ran progs →
        ∀ p ∈ progs, p ∈ allowed_commands) := by
  intro h
  have h2 := h "ls ; rm -rf /" ["ls", "rm"] (by decide) "rm" (by decide)
  exact absurd h2 (by decide)

/-- C9 (amended): the tool refuses exactly the commands whose first
whitespace-separated token is absent or outside the whitelist; every
accepted command is handed whole to the shell, whose program list is not
otherwise constrained by the gate. -/
theorem execute_command_first_token_gate (c : String) :
    ((∃ progs, execute_command c = ExecOutcome.ran progs) ↔
      ∃ h0, (pySplitWs c).head? = some h0 ∧ h0 ∈ allowed_commands) ∧
    (∀ progs, execute_command c = ExecOutcome.ran progs →
      progs = shPrograms c) := by
  cases hh : (pySplitWs c).head? with
  | none =>
    refine ⟨⟨?_, ?_⟩, ?_⟩
    · rintro ⟨progs, hp⟩
      simp only [execute_command, hh] at hp
      cases hp
    · rintro ⟨h0, h0eq, _⟩
      cases h0eq
    · intro progs hp
      simp only [execute_command, hh] at hp
      cases hp
  | some h0 =>
    by_cases hmem : allowed_commands.contains h0
    · have hrun : execute_command c = ExecOutcome.ran (shPrograms c) := by
        simp only [execute_command, hh]
        rw [if_pos hmem]
      refine ⟨⟨fun _ => ⟨h0, rfl, by simpa using hmem⟩,
        fun _ => ⟨shPrograms c, hrun⟩⟩, ?_⟩
      intro progs hp
      rw [hrun] at hp
      injection hp with h3
      exact h3.symm
    · have href : execute_command c = ExecOutcome.refused h0 := by
        simp only [execute_command, hh]
        rw [if_neg hmem]
      refine ⟨⟨?_, ?_⟩, ?_⟩
      · rintro ⟨progs, hp⟩
        rw [href] at hp
        cases hp
      · rintro ⟨h0b, h0el, hmm2⟩
        injection h0el with he
        subst he
        exact absurd (by simpa using hmm2) hmem
      · intro progs hp
        rw [href] at hp
        cases hp

/-- C9 witness: the semicolon command with a whitelisted first token is
accepted by the gate. -/
theorem execute_command_first_token_gate_witness :
    ∃ progs, execute_command "ls ; rm -rf /" = ExecOutcome.ran progs :=
  (execute_command_first_token_gate "ls ; rm -rf /").1.mpr
    ⟨"ls", by decide, by decide⟩

end RepEditor
